import Mathlib

/-!
Verification of the guarded execution core of the workelate step-execution
system: a shallow embedding of `app/agent/executor.py`, `app/llm/router.py`
and `app/llm/json_parse.py` together with proofs about the embedded
functions.  Python values are modelled by an inductive JSON-like `Value`
type, machine side effects (HTTP round trips to the completion endpoint and
tool invocations) by explicit oracles, and raised exceptions by `Except`.
-/

namespace Workelate

/-- Python/JSON values as they flow through the executor: dicts are ordered
association lists (Python dicts preserve insertion order). -/
inductive Value where
  | null
  | bool (b : Bool)
  | num (n : Int)
  | str (s : String)
  | arr (xs : List Value)
  | obj (kvs : List (String × Value))
  deriving Repr, Inhabited

/- Python `str(value)`.  Exact for `None`, booleans, integers and strings
(the cases the executor's control flow can observe); container rendering
approximates `str` of lists/dicts, whose exact text is never inspected by
the embedded code. -/
mutual
def pyStr : Value → String
  | .null => "None"
  | .bool true => "True"
  | .bool false => "False"
  | .num n => toString n
  | .str s => s
  | .arr xs => "[" ++ String.intercalate ", " (pyStrList xs) ++ "]"
  | .obj kvs => "\x7b" ++ String.intercalate ", " (pyStrKVs kvs) ++ "\x7d"

def pyStrList : List Value → List String
  | [] => []
  | v :: vs => pyStr v :: pyStrList vs

def pyStrKVs : List (String × Value) → List String
  | [] => []
  | (k, v) :: kvs => ("\x27" ++ k ++ "\x27: " ++ pyStr v) :: pyStrKVs kvs
end

/-- Python truthiness (`bool(value)`). -/
def isTruthy : Value → Bool
  | .null => false
  | .bool b => b
  | .num n => n != 0
  | .str s => !s.isEmpty
  | .arr xs => !xs.isEmpty
  | .obj kvs => !kvs.isEmpty

/-- Python `x or y` (returns `x` when truthy, else `y`). -/
def pyOr (a b : Value) : Value := if isTruthy a then a else b

/-- `d.get(k)` on a dict: `None` when the key is absent. -/
def dictGet (kvs : List (String × Value)) (k : String) : Value :=
  match kvs.lookup k with
  | some v => v
  | none => .null

/-- `d.get(k, default)` on a dict. -/
def dictGetD (kvs : List (String × Value)) (k : String) (d : Value) : Value :=
  match kvs.lookup k with
  | some v => v
  | none => d

/-- `d.get(k, default)` where the receiver may not be a dict (always guarded
by `isinstance` checks in the source before use). -/
def vGetD (v : Value) (k : String) (d : Value) : Value :=
  match v with
  | .obj kvs => dictGetD kvs k d
  | _ => d

/-- `d[k] = v` on a dict: replace in place, preserving insertion order, or
append when the key is new. -/
def dictSet (kvs : List (String × Value)) (k : String) (v : Value) : List (String × Value) :=
  if (kvs.lookup k).isSome then
    kvs.map (fun kv => if kv.1 = k then (k, v) else kv)
  else kvs ++ [(k, v)]

/-- `d.setdefault(k, v)`: insert at the end only when the key is absent. -/
def dictSetdefault (kvs : List (String × Value)) (k : String) (v : Value) : List (String × Value) :=
  if (kvs.lookup k).isSome then kvs else kvs ++ [(k, v)]

/-! ### Python string primitives, over `List Char` -/

/-- The whitespace characters `str.strip` removes (ASCII fragment). -/
def isWs (c : Char) : Bool :=
  c = ' ' || c = '\t' || c = '\n' || c = '\x0d' || c = '\x0c' || c = '\x0b'

/-- Right-strip: drop trailing whitespace. -/
def rstripData (l : List Char) : List Char :=
  ((l.reverse).dropWhile isWs).reverse

/-- Python `s.strip()` on the character list. -/
def stripData (l : List Char) : List Char :=
  rstripData (l.dropWhile isWs)

/-- Python `s.strip()`. -/
def pyStripStr (s : String) : String := String.mk (stripData s.data)

/-- Python `s.lower()` (ASCII fragment). -/
def pyLower (s : String) : String := String.mk (s.data.map Char.toLower)

/-- Does the string contain the character (`c in s`)? -/
def strHasChar (s : String) (c : Char) : Bool := decide (c ∈ s.data)

/-- Python `s.split(sep)[0]` for a one-character separator: the prefix of
`s` before the first occurrence of `sep` (all of `s` when absent). -/
def takeUntilChar (s : String) (c : Char) : String :=
  String.mk (s.data.takeWhile (fun x => x ≠ c))

/-- `pat.isPrefixOf l` without library dependence: does `l` start with `pat`? -/
def listStartsWith : List Char → List Char → Bool
  | _, [] => true
  | [], _ :: _ => false
  | c :: cs, p :: ps => c = p && listStartsWith cs ps

/-- Substring containment: `tok in hay` for Python strings. -/
def containsSeq (hay tok : List Char) : Bool :=
  match hay with
  | [] => listStartsWith [] tok
  | _ :: rest => listStartsWith (hay) tok || containsSeq rest tok

/-- `tok in s` for Python strings. -/
def strContainsStr (s tok : String) : Bool := containsSeq s.data tok.data

/-- Python `s.startswith(p)`. -/
def strStartsWith (s p : String) : Bool := listStartsWith s.data p.data

/-- Python `s[:n]` (truncation used by `_pretty` / `_safe_snippet`). -/
def strTake (s : String) (n : Nat) : String := String.mk (s.data.take n)

/-! ### `app/agent/executor.py`: constants and pure helpers -/

/-- `ALLOWED_TOOLS` from `executor.py`. -/
def ALLOWED_TOOLS : List String := ["doc_write", "metrics_generate"]

/-- `ALLOWED_DOC_TYPES` from `executor.py`. -/
def ALLOWED_DOC_TYPES : List String :=
  ["prd", "gtm", "integration_plan", "test_plan", "checklist", "roadmap",
   "kpi_doc", "runbook", "generic", "spec", "risk_register", "user_research",
   "onboarding"]

/-- `_pretty(value, limit)`: renders a value and truncates to `limit`
characters.  The JSON pretty-printing of dicts/lists is approximated by
`pyStr`; the rendering feeds only prompt text, which the oracle model never
inspects. -/
def pretty (value : Value) (limit : Nat := 4000) : String :=
  strTake (pyStr value) limit

/-- `_clarify_title(step_title)`. -/
def clarifyTitle (stepTitle : String) : String :=
  let st := pyStripStr stepTitle
  if strStartsWith (pyLower st) "clarify:" then st else "Clarify: " ++ st

/-- `_normalize_tool_name(tool_name)`. -/
def normalizeToolName : Value → String
  | .str s =>
    let t := pyStripStr s
    let t := if strHasChar t '|' then pyStripStr (takeUntilChar t '|') else t
    let t := if strHasChar t ',' then pyStripStr (takeUntilChar t ',') else t
    if t ∈ ALLOWED_TOOLS then t else "doc_write"
  | _ => "doc_write"

/-- Declared parameter names of the registered tools, as
`inspect.signature` reports them: `doc_write(title, content, doc_type,
context)` and `metrics_generate(**kwargs)` (whose sole signature entry is
the variadic parameter named `kwargs`). -/
def toolParams : String → List String
  | "doc_write" => ["title", "content", "doc_type", "context"]
  | "metrics_generate" => ["kwargs"]
  | _ => []

/-- `_clean_args_for_tool(tool, args)`: non-dict arguments collapse to a
`title`/`content` pair; otherwise keys outside the tool's declared
parameter set are dropped (or passed through when introspection yields no
parameters). -/
def cleanArgsForTool (params : List String) (args : Value) : List (String × Value) :=
  match args with
  | .obj kvs =>
    if params.isEmpty then kvs
    else kvs.filter (fun kv => decide (kv.1 ∈ params))
  | v => [("title", .str "Output"), ("content", .str (pyStr v))]

/-! ### Guardrails -/

/-- One regex of `_PLACEHOLDER_PATTERNS` of the form `\[tag[^\]]*\]`:
an occurrence of `"[" ++ tag` followed (after zero or more non-`]`
characters) by a `]`. -/
def hasBracketTag (tag : List Char) : List Char → Bool
  | [] => false
  | c :: cs =>
    (listStartsWith (c :: cs) tag && ((c :: cs).drop tag.length).contains ']')
      || hasBracketTag tag cs

/-- Is `c` a regex word character (`\w` over the lowered ASCII text)? -/
def isRegexWordChar (c : Char) : Bool :=
  ('a' ≤ c && c ≤ 'z') || ('A' ≤ c && c ≤ 'Z') || ('0' ≤ c && c ≤ '9') || c = '_'

/-- Boundary test for the character preceding a match position. -/
def boundaryBefore : Option Char → Bool
  | none => true
  | some p => !isRegexWordChar p

/-- Boundary test for the text following a match. -/
def boundaryAfter : List Char → Bool
  | [] => true
  | c :: _ => !isRegexWordChar c

/-- A regex of the form `\btok\b` (e.g. `\btbd\b`, `\blorem ipsum\b`):
an occurrence of `tok` with word boundaries on both sides. -/
def hasWordToken (tok : List Char) : Option Char → List Char → Bool
  | _, [] => false
  | prev, c :: cs =>
    (boundaryBefore prev && listStartsWith (c :: cs) tok
      && boundaryAfter ((c :: cs).drop tok.length))
      || hasWordToken tok (some c) cs

/-- A regex of the form `\bbullet\s*d\b`: `bullet`, optional whitespace,
then the digit `d`, with word boundaries around the whole match. -/
def hasBulletToken (d : Char) : Option Char → List Char → Bool
  | _, [] => false
  | prev, c :: cs =>
    (boundaryBefore prev && listStartsWith (c :: cs) "bullet".data
      && (match ((c :: cs).drop 6).dropWhile (fun x => x.isWhitespace) with
          | [] => false
          | x :: rest => x = d && boundaryAfter rest))
      || hasBulletToken d (some c) cs

/-- `_contains_placeholders(text)`: case-insensitive search of the fixed
`_PLACEHOLDER_PATTERNS` list against the lowered text. -/
def containsPlaceholders (text : String) : Bool :=
  let low := (pyLower text).data
  hasBracketTag "[insert".data low
    || hasBracketTag "[target".data low
    || hasBracketTag "[assumption".data low
    || hasBracketTag "[constraint".data low
    || hasBracketTag "[estimated".data low
    || hasWordToken "tbd".data none low
    || hasWordToken "lorem ipsum".data none low
    || hasBulletToken '1' none low
    || hasBulletToken '2' none low
    || hasBulletToken '3' none low

/-- `_extract_goal_from_context(ctx)`. -/
def extractGoalFromContext (ctx : List (String × Value)) : String :=
  match dictGet ctx "task_goal" with
  | .str s => pyStripStr s
  | _ => ""

/-- `_DRIFT_TOKENS` from `executor.py` (a set; only `any`-membership is
observed, so ordering is irrelevant). -/
def DRIFT_TOKENS : List String :=
  ["e-commerce", "ecommerce", "crm", "law firm", "law firms", "compliance",
   "hr", "ats", "resume", "logistics", "gaming", "order management",
   "inventory", "billing"]

/-- One maximal run of `[a-z0-9]` characters at a time:
`re.findall(r"[a-z0-9]+", s)`. -/
def isTokenChar (c : Char) : Bool :=
  ('a' ≤ c && c ≤ 'z') || ('0' ≤ c && c ≤ '9')

def tokenizeAux : List Char → List Char → List String
  | [], acc => if acc.isEmpty then [] else [String.mk acc.reverse]
  | c :: cs, acc =>
    if isTokenChar c then tokenizeAux cs (c :: acc)
    else if acc.isEmpty then tokenizeAux cs []
    else String.mk acc.reverse :: tokenizeAux cs []

/-- `re.findall(r"[a-z0-9]+", s)`. -/
def tokenize (s : String) : List String := tokenizeAux s.data []

/-- `{w for w in re.findall(r"[a-z0-9]+", s) if len(w) >= 4}`: the distinct
qualifying words (a Python set, represented as a deduplicated list). -/
def words4 (s : String) : List String :=
  ((tokenize s).filter (fun w => 4 ≤ w.length)).dedup

/-- `len(a.intersection(b))` for word sets represented as lists with `a`
deduplicated. -/
def overlapCount (a b : List String) : Nat :=
  (a.filter (fun w => decide (w ∈ b))).length

/-- `_likely_domain_drift(task_goal, step_title, content)`. -/
def likelyDomainDrift (taskGoal stepTitle content : String) : Bool :=
  let goal := pyLower taskGoal
  let out := pyLower content
  if pyStripStr goal = "" then false
  else if DRIFT_TOKENS.any (fun tok => strContainsStr out tok && !strContainsStr goal tok) then
    true
  else
    let goalWords := words4 goal
    let outWords := words4 out
    if goalWords.isEmpty then true
    else
      let overlap := overlapCount goalWords outWords
      if overlap < 2 then
        let st := pyLower stepTitle
        let stWords := words4 st
        let overlap2 := overlapCount goalWords (stWords ++ outWords)
        decide (overlap2 < 2)
      else false

/-- `_duplicate_headers(text)`: fold over recognized `## ` headers with a
`seen` set. -/
def dupHeaderScan : List String → List String → Bool
  | [], _ => false
  | h :: hs, seen => if h ∈ seen then true else dupHeaderScan hs (h :: seen)

/-- Python `text.splitlines()` (newline-separated; `\r` is removed by the
subsequent `strip`). -/
def splitLinesAux : List Char → List Char → List String
  | [], acc => [String.mk acc.reverse]
  | '\n' :: rest, acc => String.mk acc.reverse :: splitLinesAux rest []
  | c :: rest, acc => splitLinesAux rest (c :: acc)

def duplicateHeaders (text : String) : Bool :=
  let lines := splitLinesAux text.data []
  let headers := (lines.map pyStripStr).filter (fun l => strStartsWith l "## ")
  dupHeaderScan headers []

/-- `_make_clarify_doc(step_title, task_goal, assumptions, constraints)`. -/
def makeClarifyDoc (stepTitle taskGoal : String)
    (assumptions constraints : List String) : String :=
  let goalLine := if pyStripStr taskGoal ≠ "" then pyStripStr taskGoal else "(missing)"
  let a := if assumptions.isEmpty then [] else assumptions.take 6
  let c := if constraints.isEmpty then [] else constraints.take 6
  let bulletsA :=
    if a.isEmpty then "- (not provided)"
    else String.intercalate "\n" (a.map (fun x => "- " ++ x))
  let bulletsC :=
    if c.isEmpty then "- (not provided)"
    else String.intercalate "\n" (c.map (fun x => "- " ++ x))
  let questions : List String :=
    ["What is the exact product category and target user persona for this goal?",
     "What is the #1 pain point we are solving (and top 2 secondary pains)?",
     "What is the primary activation event (what must a user do to get value)?",
     "What is the business model (free, freemium, subscription, enterprise) and expected pricing range?",
     "Any must-have integrations (e.g., Stripe, Apple/Google IAP, wearable devices, analytics stack)?",
     "What is the launch geography and the 6-month success target (users / revenue / retention)?"]
  let qMd := String.intercalate "\n" (questions.map (fun q => "- " ++ q))
  "# " ++ clarifyTitle stepTitle ++ "\n\n## Context\n- **task_goal:** " ++ goalLine
    ++ "\n- **assumptions:**\n" ++ bulletsA
    ++ "\n- **constraints:**\n" ++ bulletsC
    ++ "\n\n## Why I’m asking\nThe previous output risked guessing or drifting from the goal. To keep this step accurate and on-domain, I need the details below.\n\n## Questions\n"
    ++ qMd ++ "\n"

/-- `_ensure_doc_write_args_schema(args)`. -/
def ensureDocWriteArgsSchema (args : List (String × Value)) : List (String × Value) :=
  let title0 := pyStripStr (pyStr (pyOr (dictGet args "title") (.str "Document")))
  let title := if title0 = "" then "Document" else title0
  let content :=
    match dictGet args "content" with
    | .str s => s
    | .null => ""
    | v => pyStr v
  let docType0 := pyStripStr (pyStr (pyOr (dictGet args "doc_type") (.str "generic")))
  let docType1 := if docType0 = "" then "generic" else docType0
  let docType := if docType1 ∈ ALLOWED_DOC_TYPES then docType1 else "generic"
  let ctx :=
    match dictGet args "context" with
    | .obj kvs => kvs
    | _ => []
  let taskGoal := pyStripStr (pyStr (pyOr (dictGet ctx "task_goal") (.str "")))
  let assumptions :=
    match dictGet ctx "assumptions" with
    | .arr xs => xs
    | _ => []
  let constraints :=
    match dictGet ctx "constraints" with
    | .arr xs => xs
    | _ => []
  [("title", .str title),
   ("content", .str content),
   ("doc_type", .str docType),
   ("context", .obj
     [("task_goal", .str taskGoal),
      ("assumptions", .arr ((assumptions.filter
        (fun x => pyStripStr (pyStr x) ≠ "")).map (fun x => .str (pyStr x)))),
      ("constraints", .arr ((constraints.filter
        (fun x => pyStripStr (pyStr x) ≠ "")).map (fun x => .str (pyStr x))))])]

/-! ### `app/llm/json_parse.py` -/

/-- JSON string literal body: consume characters after the opening quote up
to the closing quote, decoding the standard escapes (`\u` sequences are not
modelled; inputs using them fail to parse, a conservative subset of
`json.loads`). -/
def parseJsonString : List Char → List Char → Option (String × List Char)
  | [], _ => none
  | '"' :: rest, acc => some (String.mk acc.reverse, rest)
  | '\\' :: e :: rest, acc =>
    match e with
    | '"' => parseJsonString rest ('"' :: acc)
    | '\\' => parseJsonString rest ('\\' :: acc)
    | '/' => parseJsonString rest ('/' :: acc)
    | 'n' => parseJsonString rest ('\n' :: acc)
    | 't' => parseJsonString rest ('\t' :: acc)
    | 'r' => parseJsonString rest ('\x0d' :: acc)
    | 'b' => parseJsonString rest ('\x08' :: acc)
    | 'f' => parseJsonString rest ('\x0c' :: acc)
    | _ => none
  | c :: rest, acc => parseJsonString rest (c :: acc)

/-- JSON whitespace. -/
def skipJsonWs (l : List Char) : List Char :=
  l.dropWhile (fun c => c = ' ' || c = '\t' || c = '\n' || c = '\x0d')

/-- Digits of a JSON integer. -/
def parseDigits : List Char → Nat → Option (Nat × List Char)
  | c :: rest, acc =>
    if c.isDigit then
      match parseDigits rest (acc * 10 + (c.toNat - '0'.toNat)) with
      | some r => some r
      | none => some (acc * 10 + (c.toNat - '0'.toNat), rest)
    else none
  | [], _ => none

/-- JSON number (integer subset of `json.loads`: fractions/exponents are
not modelled; none of the embedded control flow inspects non-integer
numbers). -/
def parseJsonNum : List Char → Option (Int × List Char)
  | '-' :: rest =>
    match parseDigits rest 0 with
    | some (n, rest') => some (-(n : Int), rest')
    | none => none
  | l =>
    match parseDigits l 0 with
    | some (n, rest') => some ((n : Int), rest')
    | none => none

mutual
/-- Recursive-descent JSON value parser (fuel-indexed for termination; the
callers supply fuel exceeding the input length, which bounds nesting). -/
def parseJsonVal : Nat → List Char → Option (Value × List Char)
  | 0, _ => none
  | fuel + 1, l =>
    match skipJsonWs l with
    | [] => none
    | c :: rest =>
      if c = '"' then
        match parseJsonString rest [] with
        | some (s, rest') => some (.str s, rest')
        | none => none
      else if c = '[' then
        parseJsonArr fuel (skipJsonWs rest)
      else if c = '{' then
        parseJsonObj fuel (skipJsonWs rest)
      else if listStartsWith (c :: rest) "null".data then
        some (.null, (c :: rest).drop 4)
      else if listStartsWith (c :: rest) "true".data then
        some (.bool true, (c :: rest).drop 4)
      else if listStartsWith (c :: rest) "false".data then
        some (.bool false, (c :: rest).drop 5)
      else
        match parseJsonNum (c :: rest) with
        | some (n, rest') => some (.num n, rest')
        | none => none

/-- Array items, positioned after `[` (whitespace skipped). -/
def parseJsonArr : Nat → List Char → Option (Value × List Char)
  | 0, _ => none
  | fuel + 1, l =>
    match l with
    | ']' :: rest => some (.arr [], rest)
    | _ =>
      match parseJsonVal fuel l with
      | none => none
      | some (v, rest) =>
        match parseJsonArrTail fuel rest [v] with
        | some (vs, rest') => some (.arr vs, rest')
        | none => none

def parseJsonArrTail : Nat → List Char → List Value → Option (List Value × List Char)
  | 0, _, _ => none
  | fuel + 1, l, acc =>
    match skipJsonWs l with
    | ']' :: rest => some (acc.reverse, rest)
    | ',' :: rest =>
      match parseJsonVal fuel rest with
      | none => none
      | some (v, rest') => parseJsonArrTail fuel rest' (v :: acc)
    | _ => none

/-- Object members, positioned after `{` (whitespace skipped). -/
def parseJsonObj : Nat → List Char → Option (Value × List Char)
  | 0, _ => none
  | fuel + 1, l =>
    match l with
    | '}' :: rest => some (.obj [], rest)
    | _ =>
      match parseJsonMember fuel l with
      | none => none
      | some (kv, rest) =>
        match parseJsonObjTail fuel rest [kv] with
        | some (kvs, rest') => some (.obj kvs, rest')
        | none => none

def parseJsonObjTail : Nat → List Char → List (String × Value) → Option (List (String × Value) × List Char)
  | 0, _, _ => none
  | fuel + 1, l, acc =>
    match skipJsonWs l with
    | '}' :: rest => some (acc.reverse, rest)
    | ',' :: rest =>
      match parseJsonMember fuel rest with
      | none => none
      | some (kv, rest') => parseJsonObjTail fuel rest' (kv :: acc)
    | _ => none

def parseJsonMember : Nat → List Char → Option ((String × Value) × List Char)
  | 0, _ => none
  | fuel + 1, l =>
    match skipJsonWs l with
    | '"' :: rest =>
      match parseJsonString rest [] with
      | none => none
      | some (k, rest') =>
        match skipJsonWs rest' with
        | ':' :: rest'' =>
          match parseJsonVal fuel rest'' with
          | none => none
          | some (v, rest''') => some ((k, v), rest''')
        | _ => none
    | _ => none
end

/-- `json.loads(s)`: parse one JSON value and require only trailing
whitespace after it. -/
def jsonLoads (s : String) : Option Value :=
  match parseJsonVal (2 * s.length + 4) s.data with
  | some (v, rest) => if (skipJsonWs rest).isEmpty then some v else none
  | none => none

/-- `extract_json(text)` from `json_parse.py`: locate the first `{`/`[`,
parse, and on failure retry after truncating at the last `}`/`]`.  `none`
models every raised exception (`ValueError` or `JSONDecodeError`). -/
def extractJson (text : String) : Option Value :=
  let candidate := pyStripStr text
  let candidate? : Option String :=
    if strStartsWith candidate "\x7b" || strStartsWith candidate "[" then
      some candidate
    else
      match candidate.data.findIdx? (fun c => c = '{' || c = '[') with
      | none => none
      | some start => some (pyStripStr (String.mk (candidate.data.drop start)))
  match candidate? with
  | none => none
  | some cand =>
    match jsonLoads cand with
    | some v => some v
    | none =>
      let revIdx := cand.data.reverse.findIdx? (fun c => c = '}' || c = ']')
      match revIdx with
      | none => none
      | some ridx => jsonLoads (String.mk (cand.data.take (cand.length - ridx)))

/-- The two parse attempts of `llm_json` succeed only when `extract_json`
returns a mapping; any exception or non-dict result counts as failure. -/
def parseAsDict (t : String) : Option Value :=
  match extractJson t with
  | some (.obj kvs) => some (.obj kvs)
  | _ => none

/-! ### `app/llm/router.py` -/

/-- Observable outcome of one HTTP POST to the completion endpoint:
either the request raises (timeout, connection error), or a response
arrives with a status code, a body text (`r.text`), and — when the body is
well-formed — the extracted `choices[0].message.content` string. -/
inductive HttpResult where
  | exn (msg : String)
  | resp (status : Nat) (body : String) (content : Option String)

/-- The environment a step executes against: provider configuration, the
behaviour of every HTTP round trip (indexed by global request count), and
the behaviour of every tool invocation (indexed by invocation count, tool
name and keyword arguments).  Quantifying theorems over `Env` quantifies
over every behaviour of the completion endpoint and of the tools. -/
structure Env where
  provider : String
  groqKeySet : Bool
  http : Nat → HttpResult
  toolBeh : Nat → String → List (String × Value) → Except String Value

/-- The statuses `_groq_chat` treats as transient:
`(429, 500, 502, 503, 504)`. -/
def TRANSIENT_STATUSES : List Nat := [429, 500, 502, 503, 504]

/-- `0.6 * (2 ** attempt)`: the backoff slept after a failed attempt. -/
def backoffQ (attempt : Nat) : ℚ := (6 / 10 : ℚ) * 2 ^ attempt

/-- The `last_err` message each failing branch of `_groq_chat` records. -/
def failMsg : HttpResult → String
  | .exn m => m
  | .resp status body content =>
    if status ∈ TRANSIENT_STATUSES then
      "Groq transient " ++ toString status ++ ": " ++ body
    else if 400 ≤ status then
      "Groq error " ++ toString status ++ ": " ++ body
    else
      match content with
      | some _ => ""
      | none => "Unexpected Groq response: " ++ body

/-- Did this HTTP attempt fail to produce a usable completion?  (Raised
request, transient status, non-transient error status — whose `raise` is
caught by the blanket `except` — or a malformed success body.) -/
def attemptFails : HttpResult → Bool
  | .exn _ => true
  | .resp status _ content =>
    decide (status ∈ TRANSIENT_STATUSES) || decide (400 ≤ status) || content.isNone

/-- The `for attempt in range(3)` loop of `_groq_chat`: `remaining`
attempts are left, `attempt` is the current index, `httpIdx` the global
request counter.  Returns the raised-or-returned result, the new request
counter, and the list of backoffs slept. -/
def groqChatAttempts (env : Env) :
    Nat → Nat → Nat → String → Except String String × Nat × List ℚ
  | 0, _, httpIdx, lastErr =>
    (.error ("Groq call failed after retries: " ++ lastErr), httpIdx, [])
  | remaining + 1, attempt, httpIdx, _ =>
    let r := env.http httpIdx
    let retry : Except String String × Nat × List ℚ :=
      let rec' := groqChatAttempts env remaining (attempt + 1) (httpIdx + 1) (failMsg r)
      (rec'.1, rec'.2.1, backoffQ attempt :: rec'.2.2)
    match r with
    | .exn _ => retry
    | .resp status _ content =>
      if status ∈ TRANSIENT_STATUSES then retry
      else if 400 ≤ status then retry
      else
        match content with
        | some c => (.ok c, httpIdx + 1, [])
        | none => retry

/-- `_groq_chat(system, user)` (the prompts do not influence the oracle's
behaviour, which is indexed by request count, so they are not threaded
through).  The result's `.error` constructor models a raised `LLMError`. -/
def groqChat (env : Env) (httpIdx : Nat) : Except String String × Nat × List ℚ :=
  if !env.groqKeySet then
    (.error "Missing GROQ_API_KEY. Put it in your .env", httpIdx, [])
  else groqChatAttempts env 3 0 httpIdx "None"

/-- The mock provider's fixed decision (`content` echoes the user prompt). -/
def mockDecision (user : String) : Value :=
  .obj [("tool", .str "doc_write"),
        ("args", .obj [("title", .str "Mock Output"), ("content", .str user)]),
        ("decision", .str "Mock tool"),
        ("reason", .str "No LLM key"),
        ("confidence", .num 50)]

/-- The hard fallback decision `llm_json` returns when all three parse
attempts fail. -/
def hardFallbackDecision : Value :=
  .obj [("tool", .str "doc_write"),
        ("args", .obj [("title", .str "Step Output"),
                       ("content", .str "Fallback: produce a structured document for this step.")]),
        ("decision", .str "Fallback doc_write"),
        ("reason", .str "LLM JSON formatting failed after retries."),
        ("confidence", .num 0)]

/-- `llm_json(system, user)`: the three-tier repair cascade.  `user` is
consumed only by the mock provider (which echoes it); the repair prompts
sent on attempts 2 and 3 do not influence the indexed oracle.  A `.error`
result models a raised exception escaping `llm_json`. -/
def llmJson (env : Env) (httpIdx : Nat) (user : String) :
    Except String Value × Nat × List ℚ :=
  let provider := pyStripStr (pyLower env.provider)
  if provider = "mock" then (.ok (mockDecision user), httpIdx, [])
  else if provider ≠ "groq" then
    (.error ("Unsupported LLM_PROVIDER=" ++ env.provider ++ ". Use groq or mock."), httpIdx, [])
  else
    match groqChat env httpIdx with
    | (.error e, i1, b1) => (.error e, i1, b1)
    | (.ok text1, i1, b1) =>
      match parseAsDict text1 with
      | some v => (.ok v, i1, b1)
      | none =>
        match groqChat env i1 with
        | (.error e, i2, b2) => (.error e, i2, b1 ++ b2)
        | (.ok text2, i2, b2) =>
          match parseAsDict text2 with
          | some v => (.ok v, i2, b1 ++ b2)
          | none =>
            match groqChat env i2 with
            | (.error e, i3, b3) => (.error e, i3, b1 ++ b2 ++ b3)
            | (.ok text3, i3, b3) =>
              match parseAsDict text3 with
              | some v => (.ok v, i3, b1 ++ b2 ++ b3)
              | none => (.ok hardFallbackDecision, i3, b1 ++ b2 ++ b3)

/-! ### `run_step`: the execution retry controller -/

/-- Tool registry lookup domain (`app/tools/registry.py` after startup
registration: `doc_write` and `metrics_generate`). -/
def REGISTRY_TOOLS : List String := ["doc_write", "metrics_generate"]

/-- Convert an enforced `assumptions`/`constraints` value (a list of
strings after schema enforcement) into the `list[str]` the clarify
generator receives. -/
def valueToStrList : Value → List String
  | .arr xs => xs.map pyStr
  | _ => []

/-- The `context` dict of prepared `doc_write` arguments. -/
def docCtxOf (kvs : List (String × Value)) : List (String × Value) :=
  match dictGet kvs "context" with
  | .obj c => c
  | _ => []

/-- Lines 310–331 of `executor.py`: coerce non-dict args to `{}`, enforce
the `doc_write` schema, and when the enforced `task_goal` is empty
substitute the clarify document before the tool is ever invoked. -/
def objKvs : Value → List (String × Value)
  | .obj k => k
  | _ => []

def prepareDocWriteArgs (stepTitle : String) (rawArgs : Value) : List (String × Value) :=
  let kvs := ensureDocWriteArgsSchema (objKvs rawArgs)
  let ctx := docCtxOf kvs
  let taskGoal := extractGoalFromContext ctx
  if taskGoal = "" then
    let ctxAssumptions := valueToStrList (dictGetD ctx "assumptions" (.arr []))
    let ctxConstraints := valueToStrList (dictGetD ctx "constraints" (.arr []))
    dictSet (dictSet (dictSet kvs
      "title" (.str (clarifyTitle stepTitle)))
      "doc_type" (.str "generic"))
      "content" (.str (makeClarifyDoc stepTitle taskGoal ctxAssumptions ctxConstraints))
  else kvs

/-- Lines 288–353 of `executor.py`: from the cascade's decision to the
prepared `(tool_name, raw_args, clean_args)` triple (tool normalization,
registry fallback, schema enforcement, clarify pre-flight for a missing
goal, and the metrics-tool goal grounding/redirect). -/
def preflight (stepTitle : String) (memory : List (String × Value)) (decision : Value) :
    String × Value × List (String × Value) :=
  let rawToolName := vGetD decision "tool" (.str "doc_write")
  let rawArgs0 := vGetD decision "args" (.obj [])
  let toolName0 := normalizeToolName rawToolName
  let (toolName1, rawArgs1) :=
    if toolName0 ∈ REGISTRY_TOOLS then (toolName0, rawArgs0)
    else ("doc_write", Value.obj [])
  if toolName1 = "doc_write" then
    let prepared := prepareDocWriteArgs stepTitle rawArgs1
    ("doc_write", .obj prepared, cleanArgsForTool (toolParams "doc_write") (.obj prepared))
  else
    let cleanArgs0 := cleanArgsForTool (toolParams toolName1) rawArgs1
    let cleanArgs1 := dictSetdefault cleanArgs0 "task_goal"
      (.str (pyStripStr (pyStr (dictGetD memory "task_goal" (.str "")))))
    let cleanArgs2 := dictSetdefault cleanArgs1 "step_title" (.str stepTitle)
    if !isTruthy (dictGet cleanArgs2 "task_goal") then
      let rawArgs2 := Value.obj (ensureDocWriteArgsSchema
        [("title", .str (clarifyTitle stepTitle)),
         ("doc_type", .str "generic"),
         ("content", .str (makeClarifyDoc stepTitle "" [] [])),
         ("context", .obj [("task_goal", .str ""), ("assumptions", .arr []), ("constraints", .arr [])])])
      ("doc_write", rawArgs2, cleanArgsForTool (toolParams "doc_write") rawArgs2)
    else (toolName1, rawArgs1, cleanArgs2)

/-- The goal, assumptions and constraints the guardrail block re-extracts
from `raw_args` after a successful `doc_write` call (lines 365–372). -/
def guardCtx (rawArgs : Value) : String × List String × List String :=
  let ctx :=
    match rawArgs with
    | .obj kvs =>
      match dictGetD kvs "context" (.obj []) with
      | .obj c => c
      | _ => []
    | _ => []
  let taskGoal := extractGoalFromContext ctx
  let assumptions :=
    match dictGet ctx "assumptions" with
    | .arr xs => xs
    | _ => []
  let constraints :=
    match dictGet ctx "constraints" with
    | .arr xs => xs
    | _ => []
  (taskGoal,
   (assumptions.filter (fun x => pyStripStr (pyStr x) ≠ "")).map pyStr,
   (constraints.filter (fun x => pyStripStr (pyStr x) ≠ "")).map pyStr)

/-- The tool output rendered for guardrail inspection
(`output if isinstance(output, str) else str(output)`). -/
def outTextOf : Value → String
  | .str s => s
  | v => pyStr v

/-- Do the guardrail checks fire on this successful `doc_write` output? -/
def checksFired (stepTitle : String) (rawArgs : Value) (out : Value) : Bool :=
  let outText := outTextOf out
  let (taskGoal, _, _) := guardCtx rawArgs
  containsPlaceholders outText || duplicateHeaders outText
    || likelyDomainDrift taskGoal stepTitle outText

/-- The synthetic decision the guardrail block substitutes when a check
fires (`confidence = 100`, audit `reason`). -/
def syntheticClarifyDecision (stepTitle taskGoal : String)
    (assumptions constraints : List String) (bp bd bdr : Bool) : Value :=
  let pyBool : Bool → String := fun b => if b then "True" else "False"
  .obj [("tool", .str "doc_write"),
        ("args", .obj
          [("title", .str (clarifyTitle stepTitle)),
           ("content", .str (makeClarifyDoc stepTitle taskGoal assumptions constraints)),
           ("doc_type", .str "generic"),
           ("context", .obj
             [("task_goal", .str taskGoal),
              ("assumptions", .arr (assumptions.map .str)),
              ("constraints", .arr (constraints.map .str))])]),
        ("decision", .str "Forced clarify due to placeholders/duplication/domain drift risk."),
        ("reason", .str ("bad_placeholders=" ++ pyBool bp ++ ", bad_dup_headers=" ++ pyBool bd
          ++ ", bad_domain_drift=" ++ pyBool bdr)),
        ("confidence", .num 100)]

/-- Lines 362–398: post-process a successful tool output — for `doc_write`
run the guardrails and, when any fires, replace both the output and the
final decision. -/
def docSuccessPostprocess (decision : Value) (stepTitle : String) (rawArgs : Value)
    (out : Value) : Value × Value :=
  let outText := outTextOf out
  let (taskGoal, assumptions, constraints) := guardCtx rawArgs
  let bp := containsPlaceholders outText
  let bd := duplicateHeaders outText
  let bdr := likelyDomainDrift taskGoal stepTitle outText
  if bp || bd || bdr then
    (.str (makeClarifyDoc stepTitle taskGoal assumptions constraints),
     syntheticClarifyDecision stepTitle taskGoal assumptions constraints bp bd bdr)
  else (out, decision)

/-- The user prompt of the self-heal round trip (lines 407–420). -/
def fixPrompt (toolName stepTitle : String) (rawArgs : Value) (errText : String) : String :=
  "\nTool: " ++ toolName ++ "\n\nStep title: " ++ stepTitle
    ++ "\n\nOriginal args:\n" ++ pretty rawArgs
    ++ "\n\nError:\n" ++ errText
    ++ "\n\nReturn ONLY JSON:\n\x7b \"args\": \x7b ... \x7d \x7d\n"

/-- The arguments attempt 2 uses: the self-heal round trip's corrected
arguments (re-enforced for `doc_write`, then re-cleaned), or the original
cleaned arguments when the round trip itself raises (lines 405–431).
Also returns the advanced HTTP counter. -/
def selfHealArgs (env : Env) (httpIdx : Nat) (toolName stepTitle : String) (rawArgs : Value)
    (cleanArgs : List (String × Value)) (errText : String) : List (String × Value) × Nat :=
  match llmJson env httpIdx (fixPrompt toolName stepTitle rawArgs errText) with
  | (.error _, i', _) => (cleanArgs, i')
  | (.ok fix, i', _) =>
    let fixedArgs0 := vGetD fix "args" (.obj cleanArgs)
    let fixedArgs :=
      match fixedArgs0 with
      | .obj kvs =>
        if toolName = "doc_write" then Value.obj (ensureDocWriteArgsSchema kvs)
        else Value.obj kvs
      | v => v
    (cleanArgsForTool (toolParams toolName) fixedArgs, i')

/-- Result of the bounded attempt loop. -/
structure LoopResult where
  output : Value
  finalDecision : Value
  invocations : List (String × List (String × Value))
  httpIdx : Nat

/-- The `{error, details}` record produced when both attempts raise. -/
def retryErrorRecord (details : String) : Value :=
  .obj [("error", .str "Tool execution failed after retry"), ("details", .str details)]

/-- The `for attempt in range(2)` loop of `run_step` (lines 359–434):
attempt 1, optional self-heal, attempt 2, terminal error record. -/
def attemptLoop (env : Env) (decision : Value) (stepTitle : String) (toolName : String)
    (rawArgs : Value) (cleanArgs : List (String × Value)) (httpIdx toolIdx : Nat) :
    LoopResult :=
  match env.toolBeh toolIdx toolName cleanArgs with
  | .ok out =>
    let (output, fd) :=
      if toolName = "doc_write" then docSuccessPostprocess decision stepTitle rawArgs out
      else (out, decision)
    ⟨output, fd, [(toolName, cleanArgs)], httpIdx⟩
  | .error e1 =>
    let (cleanArgs2, httpIdx1) := selfHealArgs env httpIdx toolName stepTitle rawArgs cleanArgs e1
    match env.toolBeh (toolIdx + 1) toolName cleanArgs2 with
    | .ok out2 =>
      let (output, fd) :=
        if toolName = "doc_write" then docSuccessPostprocess decision stepTitle rawArgs out2
        else (out2, decision)
      ⟨output, fd, [(toolName, cleanArgs), (toolName, cleanArgs2)], httpIdx1⟩
    | .error e2 =>
      ⟨retryErrorRecord e2, decision,
       [(toolName, cleanArgs), (toolName, cleanArgs2)], httpIdx1⟩

/-- The user prompt `run_step` builds for the decision round trip (the
oracle never reads it; the mock provider echoes it). -/
def userPrompt (stepTitle : String) (memory : List (String × Value)) : String :=
  "Step: " ++ stepTitle
    ++ "\n\nMemory snapshot (may include task goal + constraints):\n"
    ++ pretty (.obj memory) 2000
    ++ "\n\nReturn the tool call JSON.\nChoose exactly ONE tool.\n"

/-- The user prompt of the best-effort reflection round trip
(lines 439–452). -/
def reflectionPrompt (stepTitle : String) (output : Value) : String :=
  "\nEvaluate this step execution.\n\nStep: " ++ stepTitle
    ++ "\nOutput:\n" ++ pretty output
    ++ "\n\nReturn ONLY valid JSON:\n\x7b\n  \"quality_score\": 1,\n  \"success\": true,\n  \"improvement\": \"...\"\n\x7d\n"

/-- Result of one `run_step` call: the returned `(output, final_decision)`
pair, or the exception it raises; plus the tool invocations performed. -/
structure RunOutcome where
  result : Except String (Value × Value)
  invocations : List (String × List (String × Value))

/-- `run_step(task_id, step_id, step_title, memory)` (lines 260–458).
Trace appends are effect-free observability and are not modelled; the
best-effort reflection round trip consumes the HTTP oracle but its outcome
(success or raise) is swallowed. -/
def runStep (env : Env) (stepTitle : String) (memory : List (String × Value)) :
    RunOutcome :=
  match llmJson env 0 (userPrompt stepTitle memory) with
  | (.error e, _, _) => ⟨.error e, []⟩
  | (.ok decision, i1, _) =>
    let (toolName, rawArgs, cleanArgs) := preflight stepTitle memory decision
    let L := attemptLoop env decision stepTitle toolName rawArgs cleanArgs i1 0
    let _reflection := llmJson env L.httpIdx (reflectionPrompt stepTitle L.output)
    ⟨.ok (L.output, L.finalDecision), L.invocations⟩

/-! ## Theorems -/

set_option maxRecDepth 100000

/-- Is a `run_step` result a normal return (as opposed to a raised
exception)? -/
def exceptIsOk : Except String (Value × Value) → Bool
  | .ok _ => true
  | .error _ => false

/-- A failing HTTP attempt makes `_groq_chat` sleep the attempt's backoff
and move to the next attempt, recording the failure message. -/
lemma groqChatAttempts_fail (env : Env) (r a i : Nat) (last : String)
    (h : attemptFails (env.http i) = true) :
    groqChatAttempts env (r + 1) a i last =
      ((groqChatAttempts env r (a + 1) (i + 1) (failMsg (env.http i))).1,
       (groqChatAttempts env r (a + 1) (i + 1) (failMsg (env.http i))).2.1,
       backoffQ a :: (groqChatAttempts env r (a + 1) (i + 1) (failMsg (env.http i))).2.2) := by
  rcases hr : env.http i with m | ⟨st, body, content⟩
  · simp [groqChatAttempts, hr]
  · simp only [attemptFails, hr, Bool.or_eq_true, decide_eq_true_eq, Option.isNone_iff_eq_none] at h
    by_cases h1 : st ∈ TRANSIENT_STATUSES
    · simp [groqChatAttempts, hr, h1]
    · by_cases h2 : 400 ≤ st
      · simp [groqChatAttempts, hr, h1, h2]
      · rcases content with _ | c
        · simp [groqChatAttempts, hr, h1, h2]
        · rcases h with (h | h) | h
          · exact absurd h h1
          · exact absurd h h2
          · simp at h

/-- Environment whose completion endpoint always answers HTTP 400 (a
non-transient client error). -/
def env400 : Env :=
  ⟨"groq", true, fun _ => .resp 400 "Bad Request" none, fun _ _ _ => .ok (.str "ok")⟩

/-- C2, counterexample: against an endpoint that always answers HTTP 400 —
a non-transient 4xx other than 429 — the completion round trip does NOT
fail immediately: `_groq_chat` issues 3 HTTP requests (the request counter
advances from 0 to 3, not to 1) and sleeps the full backoff schedule
0.6 s, 1.2 s, 2.4 s before raising, because the `raise LLMError` for
non-transient statuses is caught by the blanket `except Exception` retry
handler. -/
theorem c2_non_transient_4xx_is_retried_with_backoff :
    groqChat env400 0 =
      (.error "Groq call failed after retries: Groq error 400: Bad Request", 3,
       [backoffQ 0, backoffQ 1, backoffQ 2])
    ∧ (groqChat env400 0).2.1 ≠ 1
    ∧ (groqChat env400 0).2.2 ≠ [] := by
  refine ⟨by rfl, ?_, ?_⟩
  · show (3 : Nat) ≠ 1
    decide
  · show [backoffQ 0, backoffQ 1, backoffQ 2] ≠ []
    simp

/-- C2, amended: every failing completion attempt — timeout/connection
error, transient 429/5xx status, non-transient 4xx/5xx status, or a
malformed success body — is retried identically: 3 attempts in total, each
failure followed by a backoff of `0.6 * 2 ^ attempt` seconds, after which
the round trip raises carrying the last failure's message.  (No failure
class short-circuits without retry or backoff.)  The backoff schedule
starts at 0.6 and doubles each attempt. -/
theorem c2_all_failures_retried_up_to_3_times (env : Env) (i : Nat)
    (hkey : env.groqKeySet = true)
    (hfail : ∀ j, j < 3 → attemptFails (env.http (i + j)) = true) :
    groqChat env i =
      (.error ("Groq call failed after retries: " ++ failMsg (env.http (i + 2))), i + 3,
       [backoffQ 0, backoffQ 1, backoffQ 2])
    ∧ backoffQ 0 = 6 / 10
    ∧ ∀ n, backoffQ (n + 1) = 2 * backoffQ n := by
  refine ⟨?_, by norm_num [backoffQ], fun n => by rw [backoffQ, backoffQ]; ring⟩
  have h0 := hfail 0 (by norm_num)
  have h1 := hfail 1 (by norm_num)
  have h2 := hfail 2 (by norm_num)
  rw [groqChat, hkey]
  simp only [Bool.not_true, Bool.false_eq_true, if_false]
  rw [groqChatAttempts_fail env 2 0 i "None" (by simpa using h0)]
  rw [groqChatAttempts_fail env 1 1 (i + 1) _ (by simpa using h1)]
  rw [groqChatAttempts_fail env 0 2 (i + 1 + 1) _ (by simpa using h2)]
  simp only [groqChatAttempts]

/-- C2, witness: the amended theorem applied to the all-400 endpoint. -/
theorem c2_all_failures_retried_witness :
    env400.groqKeySet = true
    ∧ groqChat env400 0 =
        (.error ("Groq call failed after retries: " ++ failMsg (env400.http 2)), 3,
         [backoffQ 0, backoffQ 1, backoffQ 2]) :=
  ⟨rfl, by
    have h := (c2_all_failures_retried_up_to_3_times env400 0 rfl (by decide)).1
    simpa using h⟩

/-- Environment whose endpoint is entirely unreachable: every HTTP POST
raises a connection error. -/
def envDown : Env :=
  ⟨"groq", true, fun _ => .exn "Connection refused", fun _ _ _ => .ok (.str "ok")⟩

/-- C1, counterexample: with the completion endpoint unreachable, the very
first decision round trip exhausts its transport retries and the resulting
`LLMError` propagates uncaught out of `run_step` (the initial
`llm_json` call at line 285 of `executor.py` is not wrapped in any
handler), so `run_step` raises instead of returning a terminal value. -/
theorem c1_run_step_raises_on_decision_transport_failure :
    (runStep envDown "Draft plan" []).result =
      .error "Groq call failed after retries: Connection refused"
    ∧ exceptIsOk (runStep envDown "Draft plan" []).result = false := by
  constructor <;> rfl

/-- C1, amended: once the initial decision round trip returns (instead of
raising), `run_step` raises no further fault: every subsequent failure
mode — unknown tool, schema violations, tool exceptions on both attempts,
self-heal round-trip failures, guardrail firings, reflection failures —
ends in a defined terminal value returned as data (clarify document, error
record or default decision). -/
theorem c1_no_uncaught_fault_after_decision (env : Env) (stepTitle : String)
    (memory : List (String × Value)) (d : Value) (i1 : Nat) (b1 : List ℚ)
    (hD : llmJson env 0 (userPrompt stepTitle memory) = (.ok d, i1, b1)) :
    exceptIsOk (runStep env stepTitle memory).result = true := by
  rcases hP : preflight stepTitle memory d with ⟨tn, ra, ca⟩
  simp [runStep, hD, hP, exceptIsOk]

/-- Deterministic mock-provider environment (no HTTP round trips). -/
def envMock : Env :=
  ⟨"mock", false, fun _ => .exn "unused", fun _ _ _ => .ok (.str "ok")⟩

/-- C1, witness: the amended theorem at the mock environment. -/
theorem c1_no_uncaught_fault_witness :
    llmJson envMock 0 (userPrompt "T" []) =
      (.ok (mockDecision (userPrompt "T" [])), 0, [])
    ∧ exceptIsOk (runStep envMock "T" []).result = true :=
  ⟨rfl,
   c1_no_uncaught_fault_after_decision envMock "T" []
     (mockDecision (userPrompt "T" [])) 0 [] rfl⟩

/-- C7: fed three consecutive completion round trips whose responses are
unparsable (each parse attempt fails or yields a non-mapping), the repair
cascade terminates after exactly its three attempts and returns — without
propagating any parse exception — the fixed hard-coded fallback decision,
a mapping selecting the document tool with `confidence = 0`. -/
theorem c7_cascade_hard_fallback (env : Env) (i : Nat) (user t1 t2 t3 : String)
    (i1 i2 i3 : Nat) (b1 b2 b3 : List ℚ)
    (hprov : pyStripStr (pyLower env.provider) = "groq")
    (h1 : groqChat env i = (.ok t1, i1, b1)) (p1 : parseAsDict t1 = none)
    (h2 : groqChat env i1 = (.ok t2, i2, b2)) (p2 : parseAsDict t2 = none)
    (h3 : groqChat env i2 = (.ok t3, i3, b3)) (p3 : parseAsDict t3 = none) :
    llmJson env i user = (.ok hardFallbackDecision, i3, b1 ++ b2 ++ b3)
    ∧ vGetD hardFallbackDecision "tool" .null = .str "doc_write"
    ∧ vGetD hardFallbackDecision "confidence" .null = .num 0 := by
  refine ⟨?_, by rfl, by rfl⟩
  rw [llmJson, hprov]
  simp only [reduceIte, ne_eq, not_true_eq_false, if_false]
  rw [h1]
  simp only [p1]
  rw [h2]
  simp only [p2]
  rw [h3]
  simp only [p3]
  rw [if_neg (by decide)]

/-- Environment whose endpoint always answers successfully but with prose
containing no JSON at all. -/
def envUnparsable : Env :=
  ⟨"groq", true, fun _ => .resp 200 "ok" (some "no json here"), fun _ _ _ => .ok (.str "ok")⟩

/-- C7, witness: three concrete unparsable responses produce the hard
fallback. -/
theorem c7_cascade_hard_fallback_witness :
    parseAsDict "no json here" = none
    ∧ llmJson envUnparsable 0 "u" = (.ok hardFallbackDecision, 3, [] ++ [] ++ []) :=
  ⟨rfl,
   (c7_cascade_hard_fallback envUnparsable 0 "u" "no json here" "no json here"
     "no json here" 1 2 3 [] [] [] rfl rfl rfl rfl rfl rfl rfl).1⟩

/-! ### List lemmas for C8 (tool-name normalization) -/

lemma dropWhile_append_pivot (p : Char → Bool) (a b : List Char) (c : Char)
    (hc : p c = false) :
    (a ++ c :: b).dropWhile p = a.dropWhile p ++ c :: b := by
  induction a with
  | nil => simp [List.dropWhile_cons, hc]
  | cons x xs ih => by_cases hx : p x <;> simp [List.dropWhile_cons, hx, ih]

lemma takeWhile_append_of_all (p : Char → Bool) (a b : List Char)
    (h : ∀ x ∈ a, p x = true) :
    (a ++ b).takeWhile p = a ++ b.takeWhile p := by
  induction a with
  | nil => simp
  | cons x xs ih =>
    have hx := h x (by simp)
    simp only [List.cons_append, List.takeWhile_cons, hx, if_true]
    rw [ih (fun y hy => h y (by simp [hy]))]

lemma takeWhile_append_stop (p : Char → Bool) (a : List Char) (c : Char) (b : List Char)
    (h : ∀ x ∈ a, p x = true) (hc : p c = false) :
    (a ++ c :: b).takeWhile p = a := by
  rw [takeWhile_append_of_all p a _ h, List.takeWhile_cons, hc]
  simp

lemma mem_rstripData {x : Char} {l : List Char} (hx : x ∈ rstripData l) : x ∈ l := by
  unfold rstripData at hx
  rw [List.mem_reverse] at hx
  exact List.mem_reverse.mp ((List.dropWhile_sublist isWs).mem hx)

lemma mem_stripData {x : Char} {l : List Char} (hx : x ∈ stripData l) : x ∈ l := by
  unfold stripData at hx
  exact (List.dropWhile_sublist isWs).mem (mem_rstripData hx)

lemma stripData_append_pivot (a b : List Char) (c : Char) (hc : isWs c = false) :
    stripData (a ++ c :: b) = a.dropWhile isWs ++ c :: rstripData b := by
  unfold stripData rstripData
  rw [dropWhile_append_pivot isWs a b c hc]
  rw [show (a.dropWhile isWs ++ c :: b).reverse = b.reverse ++ c :: (a.dropWhile isWs).reverse by
    simp]
  rw [dropWhile_append_pivot isWs b.reverse ((a.dropWhile isWs).reverse) c hc]
  simp

lemma stripData_dropWhile (l : List Char) :
    stripData (l.dropWhile isWs) = stripData l := by
  unfold stripData
  rw [List.dropWhile_idempotent]

/-- C8: tool-identifier normalization.  Non-string identifiers default to
the document tool.  A string is whitespace-stripped; with no `|`/`,`
separator present the stripped name is kept iff it is a known tool (else
the document tool); with a separator present only the first segment
(stripped) is considered, and an unknown first segment again yields the
document tool. -/
theorem c8_normalize_tool_name :
    (∀ v : Value, (∀ s, v ≠ .str s) → normalizeToolName v = "doc_write")
    ∧ (∀ s : String,
        strHasChar (pyStripStr s) '|' = false → strHasChar (pyStripStr s) ',' = false →
        normalizeToolName (.str s) =
          if pyStripStr s ∈ ALLOWED_TOOLS then pyStripStr s else "doc_write")
    ∧ (∀ (s₁ s₂ : String) (sep : Char), sep = '|' ∨ sep = ',' →
        '|' ∉ s₁.data → ',' ∉ s₁.data →
        normalizeToolName (.str (s₁ ++ String.mk [sep] ++ s₂)) =
          if pyStripStr s₁ ∈ ALLOWED_TOOLS then pyStripStr s₁ else "doc_write") := by
  refine ⟨?_, ?_, ?_⟩
  · intro v hv
    cases v with
    | str s => exact absurd rfl (hv s)
    | null => rfl
    | bool b => rfl
    | num n => rfl
    | arr xs => rfl
    | obj kvs => rfl
  · intro s h1 h2
    simp [normalizeToolName, h1, h2]
  · intro s₁ s₂ sep hsep hp hc
    have hsepWs : isWs sep = false := by rcases hsep with h | h <;> simp [h, isWs]
    have hdata : (s₁ ++ String.mk [sep] ++ s₂).data = s₁.data ++ sep :: s₂.data := by
      rw [String.data_append, String.data_append]
      simp
    have hstrip : stripData (s₁ ++ String.mk [sep] ++ s₂).data =
        s₁.data.dropWhile isWs ++ sep :: rstripData s₂.data := by
      rw [hdata, stripData_append_pivot _ _ _ hsepWs]
    set dwa := s₁.data.dropWhile isWs with hdwa
    have hpDwa : '|' ∉ dwa := fun hmem => hp ((List.dropWhile_sublist isWs).mem hmem)
    have hcDwa : ',' ∉ dwa := fun hmem => hc ((List.dropWhile_sublist isWs).mem hmem)
    have hStripS1 : pyStripStr (String.mk dwa) = pyStripStr s₁ := by
      unfold pyStripStr
      show String.mk (stripData dwa) = String.mk (stripData s₁.data)
      rw [hdwa, stripData_dropWhile]
    have hcStrip : strHasChar (pyStripStr (String.mk dwa)) ',' = false := by
      unfold strHasChar
      simp only [decide_eq_false_iff_not]
      intro hmem
      exact hcDwa (mem_stripData hmem)
    have hpStrip : strHasChar (pyStripStr (String.mk dwa)) '|' = false := by
      unfold strHasChar
      simp only [decide_eq_false_iff_not]
      intro hmem
      exact hpDwa (mem_stripData hmem)
    rcases hsep with hsep | hsep
    · -- sep = '|': the first split keeps the prefix before '|'
      subst hsep
      rw [normalizeToolName]
      have hhas : strHasChar (pyStripStr (s₁ ++ String.mk ['|'] ++ s₂)) '|' = true := by
        unfold strHasChar pyStripStr
        rw [hstrip]
        simp
      rw [hhas]
      simp only [if_true]
      have htake : takeUntilChar (pyStripStr (s₁ ++ String.mk ['|'] ++ s₂)) '|' =
          String.mk dwa := by
        unfold takeUntilChar pyStripStr
        rw [hstrip]
        show String.mk ((dwa ++ '|' :: rstripData s₂.data).takeWhile fun x => decide ¬x = '|') =
          String.mk dwa
        rw [takeWhile_append_stop _ _ _ _ (fun x hx => by
          simp only [decide_eq_true_eq]
          exact fun hEq => hpDwa (hEq ▸ hx)) (by simp)]
      rw [htake, hcStrip]
      simp only [Bool.false_eq_true, if_false]
      rw [hStripS1]
    · -- sep = ',': the '|' split may or may not apply first
      subst hsep
      rw [normalizeToolName]
      by_cases hbar : '|' ∈ rstripData s₂.data
      · have hhas : strHasChar (pyStripStr (s₁ ++ String.mk [','] ++ s₂)) '|' = true := by
          unfold strHasChar pyStripStr
          rw [hstrip]
          simp [hbar]
        rw [hhas]
        simp only [if_true]
        have htake1 : takeUntilChar (pyStripStr (s₁ ++ String.mk [','] ++ s₂)) '|' =
            String.mk (dwa ++ ',' :: ((rstripData s₂.data).takeWhile fun x => decide ¬x = '|')) := by
          unfold takeUntilChar pyStripStr
          rw [hstrip]
          show String.mk ((dwa ++ ',' :: rstripData s₂.data).takeWhile fun x => decide ¬x = '|') = _
          rw [show dwa ++ ',' :: rstripData s₂.data = (dwa ++ [',']) ++ rstripData s₂.data by simp]
          rw [takeWhile_append_of_all _ _ _ (fun x hx => by
            simp only [decide_eq_true_eq]
            rcases List.mem_append.mp hx with hx | hx
            · exact fun hEq => hpDwa (hEq ▸ hx)
            · intro hEq
              simp only [List.mem_singleton] at hx
              rw [hx] at hEq
              exact absurd hEq (by decide))]
          simp
        rw [htake1]
        have hstrip2 : pyStripStr (String.mk
            (dwa ++ ',' :: ((rstripData s₂.data).takeWhile fun x => decide ¬x = '|'))) =
            String.mk (dwa ++ ',' :: rstripData ((rstripData s₂.data).takeWhile fun x => decide ¬x = '|')) := by
          unfold pyStripStr
          show String.mk (stripData _) = _
          rw [show (String.mk (dwa ++ ',' :: ((rstripData s₂.data).takeWhile fun x => decide ¬x = '|'))).data
              = dwa ++ ',' :: ((rstripData s₂.data).takeWhile fun x => decide ¬x = '|') from rfl]
          rw [stripData_append_pivot _ _ _ (by decide)]
          rw [hdwa, List.dropWhile_idempotent]
        rw [hstrip2]
        have hhasc : strHasChar (String.mk (dwa ++ ',' :: rstripData
            ((rstripData s₂.data).takeWhile fun x => decide ¬x = '|'))) ',' = true := by
          unfold strHasChar
          simp
        rw [hhasc]
        simp only [if_true]
        have htake2 : takeUntilChar (String.mk (dwa ++ ',' :: rstripData
            ((rstripData s₂.data).takeWhile fun x => decide ¬x = '|'))) ',' = String.mk dwa := by
          unfold takeUntilChar
          show String.mk ((dwa ++ ',' :: _).takeWhile fun x => decide ¬x = ',') = _
          rw [takeWhile_append_stop _ _ _ _ (fun x hx => by
            simp only [decide_eq_true_eq]
            exact fun hEq => hcDwa (hEq ▸ hx)) (by simp)]
        rw [htake2, hStripS1]
      · have hnobar : strHasChar (pyStripStr (s₁ ++ String.mk [','] ++ s₂)) '|' = false := by
          unfold strHasChar pyStripStr
          rw [hstrip]
          simp only [decide_eq_false_iff_not, List.mem_append, List.mem_cons]
          rintro (hmem | hmem | hmem)
          · exact hpDwa hmem
          · exact absurd hmem (by decide)
          · exact hbar hmem
        rw [hnobar]
        simp only [Bool.false_eq_true, if_false]
        have hhasc : strHasChar (pyStripStr (s₁ ++ String.mk [','] ++ s₂)) ',' = true := by
          unfold strHasChar pyStripStr
          rw [hstrip]
          simp
        rw [hhasc]
        simp only [if_true]
        have htake : takeUntilChar (pyStripStr (s₁ ++ String.mk [','] ++ s₂)) ',' =
            String.mk dwa := by
          unfold takeUntilChar pyStripStr
          rw [hstrip]
          show String.mk ((dwa ++ ',' :: rstripData s₂.data).takeWhile fun x => decide ¬x = ',') =
            String.mk dwa
          rw [takeWhile_append_stop _ _ _ _ (fun x hx => by
            simp only [decide_eq_true_eq]
            exact fun hEq => hcDwa (hEq ▸ hx)) (by simp)]
        rw [htake, hStripS1]

/-- C8, witness: normalization of concrete identifiers through the
theorem — a separator-bearing known first segment, a separator-bearing
unknown first segment, and a non-string identifier. -/
theorem c8_normalize_tool_name_witness :
    normalizeToolName (.str (" metrics_generate " ++ String.mk ['|'] ++ " doc_write")) =
      "metrics_generate"
    ∧ normalizeToolName (.str ("bogus" ++ String.mk [','] ++ "doc_write")) = "doc_write"
    ∧ normalizeToolName (.num 7) = "doc_write" := by
  refine ⟨?_, ?_, ?_⟩
  · have h := (c8_normalize_tool_name.2.2) " metrics_generate " " doc_write" '|'
      (Or.inl rfl) (by decide) (by decide)
    rw [h]
    rfl
  · have h := (c8_normalize_tool_name.2.2) "bogus" "doc_write" ','
      (Or.inr rfl) (by decide) (by decide)
    rw [h]
    rfl
  · exact (c8_normalize_tool_name.1) (.num 7) (fun s h => by cases h)

/-! ### C5: the Schema Enforcer's output shape -/

/-- Spec-side: a non-empty string value. -/
def isNonEmptyString : Value → Bool
  | .str s => decide (s ≠ "")
  | _ => false

/-- Spec-side predicate, written from the claim: the argument mapping has
exactly the fields `title` (non-empty string), `content` (string),
`doc_type` (string in the fixed allowed set), and `context` with exactly
`task_goal` (a string), `assumptions` and `constraints` (sequences of
non-empty strings); no field is null. -/
def specWellFormedDocArgs : List (String × Value) → Bool
  | [("title", .str t), ("content", .str _), ("doc_type", .str d),
     ("context", .obj [("task_goal", .str _), ("assumptions", .arr as),
                       ("constraints", .arr cs)])] =>
    decide (t ≠ "") && decide (d ∈ ALLOWED_DOC_TYPES)
      && as.all isNonEmptyString && cs.all isNonEmptyString
  | _ => false

lemma pyStripStr_empty : pyStripStr "" = "" := rfl

lemma filtered_all_nonEmpty (xs : List Value) :
    ((xs.filter (fun x => pyStripStr (pyStr x) ≠ "")).map
      (fun x => Value.str (pyStr x))).all isNonEmptyString = true := by
  rw [List.all_eq_true]
  intro v hv
  rcases List.mem_map.mp hv with ⟨x, hxmem, rfl⟩
  have hpred := (List.mem_filter.mp hxmem).2
  simp only [decide_eq_true_eq] at hpred
  simp only [isNonEmptyString, decide_eq_true_eq]
  intro hEq
  exact hpred (by rw [hEq, pyStripStr_empty])

/-- C5: for every input argument mapping — any shapes and value types,
nulls included — the Schema Enforcer's output has exactly the four
enforced fields with title a non-empty string (defaulting to `"Document"`
on absent input), content a string, doc_type in the fixed allowed set,
and a context whose `task_goal` is a string and whose
`assumptions`/`constraints` are sequences of non-empty strings; nothing is
ever null. -/
theorem c5_schema_enforcer_shape :
    (∀ args : List (String × Value),
      specWellFormedDocArgs (ensureDocWriteArgsSchema args) = true)
    ∧ dictGet (ensureDocWriteArgsSchema []) "title" = .str "Document" := by
  constructor
  · intro args
    rw [ensureDocWriteArgsSchema]
    rw [specWellFormedDocArgs]
    simp only [Bool.and_eq_true, decide_eq_true_eq]
    refine ⟨⟨⟨?_, ?_⟩, ?_⟩, ?_⟩
    · by_cases h : pyStripStr (pyStr (pyOr (dictGet args "title") (.str "Document"))) = "" <;>
        simp [h]
    · by_cases h1 : pyStripStr (pyStr (pyOr (dictGet args "doc_type") (.str "generic"))) = ""
      · rw [if_pos h1]
        by_cases h2 : ("generic" : String) ∈ ALLOWED_DOC_TYPES
        · rw [if_pos h2]
          exact h2
        · rw [if_neg h2]
          decide
      · rw [if_neg h1]
        by_cases h2 : (pyStripStr (pyStr (pyOr (dictGet args "doc_type") (.str "generic"))))
            ∈ ALLOWED_DOC_TYPES
        · rw [if_pos h2]
          exact h2
        · rw [if_neg h2]
          decide
    · exact filtered_all_nonEmpty _
    · exact filtered_all_nonEmpty _
  · rfl

/-- C5, witness: the shape theorem applied to a pathological concrete
mapping (numeric title, numeric content, unknown doc type, non-dict
context). -/
theorem c5_schema_enforcer_shape_witness :
    specWellFormedDocArgs (ensureDocWriteArgsSchema
      [("title", .num 0), ("content", .num 5), ("doc_type", .str "weird"),
       ("context", .str "no")]) = true :=
  c5_schema_enforcer_shape.1
    [("title", .num 0), ("content", .num 5), ("doc_type", .str "weird"),
     ("context", .str "no")]

/-! ### C6: goal-drift detection -/

lemma listStartsWith_iff (pat l : List Char) :
    listStartsWith l pat = true ↔ pat <+: l := by
  induction pat generalizing l with
  | nil => simp [listStartsWith]
  | cons p ps ih =>
    cases l with
    | nil => simp [listStartsWith]
    | cons c cs =>
      show (decide (c = p) && listStartsWith cs ps) = true ↔ _
      rw [List.cons_prefix_cons, Bool.and_eq_true, decide_eq_true_eq, ih]
      constructor
      · rintro ⟨hcp, h⟩
        exact ⟨hcp.symm, h⟩
      · rintro ⟨hcp, h⟩
        exact ⟨hcp.symm, h⟩

lemma containsSeq_iff (hay tok : List Char) :
    containsSeq hay tok = true ↔ tok <:+: hay := by
  induction hay with
  | nil =>
    show listStartsWith [] tok = true ↔ _
    rw [listStartsWith_iff]
    constructor
    · intro h
      exact h.isInfix
    · intro h
      rcases List.infix_nil.mp h with rfl
      exact List.nil_prefix
  | cons c rest ih =>
    show (listStartsWith (c :: rest) tok || containsSeq rest tok) = true ↔ _
    rw [Bool.or_eq_true, listStartsWith_iff, ih, List.infix_cons_iff]

lemma strContainsStr_iff (s tok : String) :
    strContainsStr s tok = true ↔ tok.data <:+: s.data :=
  containsSeq_iff _ _

lemma driftTokenHit_iff (g o : String) :
    (DRIFT_TOKENS.any (fun tok => strContainsStr o tok && !strContainsStr g tok)) = true ↔
      ∃ tok ∈ DRIFT_TOKENS, tok.data <:+: o.data ∧ ¬ tok.data <:+: g.data := by
  rw [List.any_eq_true]
  constructor <;> rintro ⟨tok, htok, hcond⟩ <;> refine ⟨tok, htok, ?_⟩
  · rw [Bool.and_eq_true, Bool.not_eq_true'] at hcond
    refine ⟨(strContainsStr_iff _ _).mp hcond.1, fun hinf => ?_⟩
    have h := (strContainsStr_iff g tok).mpr hinf
    rw [hcond.2] at h
    exact absurd h (by decide)
  · rw [Bool.and_eq_true, Bool.not_eq_true']
    refine ⟨(strContainsStr_iff _ _).mpr hcond.1, ?_⟩
    cases hbool : strContainsStr g tok
    · rfl
    · exact absurd ((strContainsStr_iff _ _).mp hbool) hcond.2

lemma toFinset_eq_empty_iff_nil (l : List String) : l.toFinset = ∅ ↔ l = [] := by
  constructor
  · intro h
    cases l with
    | nil => rfl
    | cons x xs =>
      exact absurd (h ▸ List.mem_toFinset.mpr (List.mem_cons_self x xs))
        (Finset.not_mem_empty x)
  · rintro rfl
    rfl

lemma overlapCount_eq_card (a b : List String) (h : a.Nodup) :
    overlapCount a b = (a.toFinset ∩ b.toFinset).card := by
  unfold overlapCount
  have h1 : (a.filter (fun w => decide (w ∈ b))).Nodup := h.filter _
  rw [← List.toFinset_card_of_nodup h1, List.toFinset_filter]
  congr 1
  rw [← Finset.filter_mem_eq_inter]
  apply Finset.filter_congr
  intro x _
  simp [List.mem_toFinset]

lemma words4_nodup (s : String) : (words4 s).Nodup := List.nodup_dedup _

/-- C6: characterization of goal-drift detection, plus the claim's
concrete example.  Empty (stripped) goal means no drift.  Otherwise drift
fires exactly when either (a) some unrelated-industry keyword occurs in
the output but not in the goal, or (b) no keyword fires and — with goal
and output tokenized into lowercase alphanumeric words of length ≥ 4 —
the goal yields no qualifying word at all, or it does but the goal/output
word-set intersection has fewer than 2 members and the overlap widened
with the step title's words is still below 2. -/
theorem c6_drift_detection :
    (∀ goal st content : String,
      likelyDomainDrift goal st content = true ↔
        (pyStripStr (pyLower goal) ≠ "" ∧
          ((∃ tok ∈ DRIFT_TOKENS, tok.data <:+: (pyLower content).data ∧
              ¬ tok.data <:+: (pyLower goal).data)
           ∨ ((∀ tok ∈ DRIFT_TOKENS, tok.data <:+: (pyLower content).data →
                 tok.data <:+: (pyLower goal).data) ∧
              ((words4 (pyLower goal)).toFinset = ∅ ∨
               ((words4 (pyLower goal)).toFinset ≠ ∅ ∧
                ((words4 (pyLower goal)).toFinset ∩ (words4 (pyLower content)).toFinset).card < 2 ∧
                ((words4 (pyLower goal)).toFinset ∩
                  ((words4 (pyLower st)).toFinset ∪ (words4 (pyLower content)).toFinset)).card < 2))))))
    ∧ likelyDomainDrift "mobile fitness app" "Kickoff" "Roadmap for the e-commerce storefront" = true := by
  constructor
  · intro goal st content
    by_cases hempty : pyStripStr (pyLower goal) = ""
    · simp [likelyDomainDrift, hempty]
    · by_cases htok : (DRIFT_TOKENS.any
          (fun tok => strContainsStr (pyLower content) tok && !strContainsStr (pyLower goal) tok)) = true
      · have hex := (driftTokenHit_iff (pyLower goal) (pyLower content)).mp htok
        simp [likelyDomainDrift, hempty, htok, hex]
      · have hnotex : ∀ tok ∈ DRIFT_TOKENS, tok.data <:+: (pyLower content).data →
            tok.data <:+: (pyLower goal).data := by
          intro tok hmem hinf
          by_contra hni
          exact htok ((driftTokenHit_iff _ _).mpr ⟨tok, hmem, hinf, hni⟩)
        have hnex : ¬ ∃ tok ∈ DRIFT_TOKENS, tok.data <:+: (pyLower content).data ∧
            ¬ tok.data <:+: (pyLower goal).data := by
          rintro ⟨tok, hmem, hinf, hni⟩
          exact hni (hnotex tok hmem hinf)
        by_cases hgw : words4 (pyLower goal) = []
        · have hLHS : likelyDomainDrift goal st content = true := by
            simp [likelyDomainDrift, hempty, htok, hgw]
          rw [hLHS]
          simp only [true_iff]
          exact ⟨hempty, Or.inr ⟨hnotex,
            Or.inl ((toFinset_eq_empty_iff_nil _).mpr hgw)⟩⟩
        · have hGne : (words4 (pyLower goal)).toFinset ≠ ∅ := by
            rw [ne_eq, toFinset_eq_empty_iff_nil]
            exact hgw
          by_cases hov : overlapCount (words4 (pyLower goal)) (words4 (pyLower content)) < 2
          · have hovC : ((words4 (pyLower goal)).toFinset ∩
                (words4 (pyLower content)).toFinset).card < 2 := by
              rw [← overlapCount_eq_card _ _ (words4_nodup _)]
              exact hov
            have hwide : overlapCount (words4 (pyLower goal))
                (words4 (pyLower st) ++ words4 (pyLower content)) =
                ((words4 (pyLower goal)).toFinset ∩
                  ((words4 (pyLower st)).toFinset ∪ (words4 (pyLower content)).toFinset)).card := by
              rw [overlapCount_eq_card _ _ (words4_nodup _), List.toFinset_append]
            have hLHS : likelyDomainDrift goal st content =
                decide (overlapCount (words4 (pyLower goal))
                  (words4 (pyLower st) ++ words4 (pyLower content)) < 2) := by
              simp [likelyDomainDrift, hempty, htok, hgw, hov]
            rw [hLHS, decide_eq_true_iff, hwide]
            constructor
            · intro h
              exact ⟨hempty, Or.inr ⟨hnotex, Or.inr ⟨hGne, hovC, h⟩⟩⟩
            · rintro ⟨-, hex | ⟨-, hG0 | ⟨-, -, hw⟩⟩⟩
              · exact absurd hex hnex
              · exact absurd ((toFinset_eq_empty_iff_nil _).mp hG0) hgw
              · exact hw
          · have hovC : ¬ ((words4 (pyLower goal)).toFinset ∩
                (words4 (pyLower content)).toFinset).card < 2 := by
              rw [← overlapCount_eq_card _ _ (words4_nodup _)]
              exact hov
            have hLHS : likelyDomainDrift goal st content = false := by
              simp [likelyDomainDrift, hempty, htok, hgw, hov]
            rw [hLHS]
            constructor
            · intro h
              exact absurd h (by decide)
            · rintro ⟨-, hex | ⟨-, hG0 | ⟨-, hc, -⟩⟩⟩
              · exact absurd hex hnex
              · exact absurd ((toFinset_eq_empty_iff_nil _).mp hG0) hgw
              · exact absurd hc hovC
  · rfl

/-- C6, witness: the characterization applied at the claim's example —
an unrelated-industry keyword in the output, absent from the goal, flags
drift. -/
theorem c6_drift_detection_witness :
    likelyDomainDrift "mobile fitness app" "Launch checklist"
      "Quarterly plan for the e-commerce marketplace" = true :=
  (c6_drift_detection.1 "mobile fitness app" "Launch checklist"
      "Quarterly plan for the e-commerce marketplace").mpr
    ⟨by decide,
     Or.inl ⟨"e-commerce", by decide, by decide, by decide⟩⟩

/-! ### Shared unfolding lemmas for the executor state machine -/

/-- `run_step` after a successful decision round trip is the attempt loop
on the preflighted decision (reflection is outcome-invisible). -/
lemma runStep_eq (env : Env) (st : String) (mem : List (String × Value))
    (d : Value) (i1 : Nat) (b1 : List ℚ) (tn : String) (ra : Value)
    (ca : List (String × Value))
    (hD : llmJson env 0 (userPrompt st mem) = (.ok d, i1, b1))
    (hP : preflight st mem d = (tn, ra, ca)) :
    runStep env st mem =
      ⟨.ok ((attemptLoop env d st tn ra ca i1 0).output,
            (attemptLoop env d st tn ra ca i1 0).finalDecision),
       (attemptLoop env d st tn ra ca i1 0).invocations⟩ := by
  simp only [runStep, hD, hP]

lemma docSuccessPostprocess_fired (d : Value) (st : String) (ra : Value) (out : Value)
    (g : String) (A C : List String)
    (hG : guardCtx ra = (g, A, C)) (hf : checksFired st ra out = true) :
    docSuccessPostprocess d st ra out =
      (.str (makeClarifyDoc st g A C),
       syntheticClarifyDecision st g A C
         (containsPlaceholders (outTextOf out)) (duplicateHeaders (outTextOf out))
         (likelyDomainDrift g st (outTextOf out))) := by
  unfold checksFired at hf
  rw [hG] at hf
  dsimp only at hf
  unfold docSuccessPostprocess
  rw [hG]
  dsimp only
  rw [if_pos hf]

lemma docSuccessPostprocess_clean (d : Value) (st : String) (ra : Value) (out : Value)
    (hf : checksFired st ra out = false) :
    docSuccessPostprocess d st ra out = (out, d) := by
  rcases hG : guardCtx ra with ⟨g, A, C⟩
  unfold checksFired at hf
  rw [hG] at hf
  dsimp only at hf
  unfold docSuccessPostprocess
  rw [hG]
  dsimp only
  simp only [hf, Bool.false_eq_true, if_false]

lemma attemptLoop_ok1_doc (env : Env) (d : Value) (st : String) (ra : Value)
    (ca : List (String × Value)) (i t : Nat) (out : Value)
    (h : env.toolBeh t "doc_write" ca = .ok out) :
    attemptLoop env d st "doc_write" ra ca i t =
      ⟨(docSuccessPostprocess d st ra out).1, (docSuccessPostprocess d st ra out).2,
       [("doc_write", ca)], i⟩ := by
  simp [attemptLoop, h]

lemma attemptLoop_ok1_other (env : Env) (d : Value) (st tn : String) (ra : Value)
    (ca : List (String × Value)) (i t : Nat) (out : Value)
    (htn : tn ≠ "doc_write") (h : env.toolBeh t tn ca = .ok out) :
    attemptLoop env d st tn ra ca i t = ⟨out, d, [(tn, ca)], i⟩ := by
  simp only [attemptLoop, h, htn, if_false]

lemma attemptLoop_fail_ok_doc (env : Env) (d : Value) (st : String) (ra : Value)
    (ca : List (String × Value)) (i t : Nat) (e1 : String) (out : Value)
    (h1 : env.toolBeh t "doc_write" ca = .error e1)
    (h2 : env.toolBeh (t + 1) "doc_write"
      (selfHealArgs env i "doc_write" st ra ca e1).1 = .ok out) :
    attemptLoop env d st "doc_write" ra ca i t =
      ⟨(docSuccessPostprocess d st ra out).1, (docSuccessPostprocess d st ra out).2,
       [("doc_write", ca), ("doc_write", (selfHealArgs env i "doc_write" st ra ca e1).1)],
       (selfHealArgs env i "doc_write" st ra ca e1).2⟩ := by
  rcases hS : selfHealArgs env i "doc_write" st ra ca e1 with ⟨ca2, i2⟩
  rw [hS] at h2
  simp [attemptLoop, h1, hS, h2]

lemma attemptLoop_fail_ok_other (env : Env) (d : Value) (st tn : String) (ra : Value)
    (ca : List (String × Value)) (i t : Nat) (e1 : String) (out : Value)
    (htn : tn ≠ "doc_write") (h1 : env.toolBeh t tn ca = .error e1)
    (h2 : env.toolBeh (t + 1) tn (selfHealArgs env i tn st ra ca e1).1 = .ok out) :
    attemptLoop env d st tn ra ca i t =
      ⟨out, d, [(tn, ca), (tn, (selfHealArgs env i tn st ra ca e1).1)],
       (selfHealArgs env i tn st ra ca e1).2⟩ := by
  rcases hS : selfHealArgs env i tn st ra ca e1 with ⟨ca2, i2⟩
  rw [hS] at h2
  simp only [attemptLoop, h1, hS, h2, htn, if_false]

lemma attemptLoop_fail_fail (env : Env) (d : Value) (st tn : String) (ra : Value)
    (ca : List (String × Value)) (i t : Nat) (e1 e2 : String)
    (h1 : env.toolBeh t tn ca = .error e1)
    (h2 : env.toolBeh (t + 1) tn (selfHealArgs env i tn st ra ca e1).1 = .error e2) :
    attemptLoop env d st tn ra ca i t =
      ⟨retryErrorRecord e2, d, [(tn, ca), (tn, (selfHealArgs env i tn st ra ca e1).1)],
       (selfHealArgs env i tn st ra ca e1).2⟩ := by
  rcases hS : selfHealArgs env i tn st ra ca e1 with ⟨ca2, i2⟩
  rw [hS] at h2
  simp only [attemptLoop, h1, hS, h2]

/-! ### C4: empty-goal clarify substitution happens before tool invocation -/

/-- C4: whenever the enforced `context.task_goal` is empty, the prepared
`doc_write` arguments carry exactly the Clarify Generator's output for
that step title with an empty goal (and the enforced
assumptions/constraints), `doc_type = "generic"`, and a clarify-prefixed
title — whatever the model originally proposed; moreover the signature
cleaning step passes these arguments through unchanged, so this is what
the tool is invoked with. -/
theorem c4_empty_goal_clarify_substitution (st : String) (rawArgs : Value)
    (hGoal : extractGoalFromContext
      (docCtxOf (ensureDocWriteArgsSchema (objKvs rawArgs))) = "") :
    dictGet (prepareDocWriteArgs st rawArgs) "content" =
      .str (makeClarifyDoc st ""
        (valueToStrList (dictGetD (docCtxOf (ensureDocWriteArgsSchema (objKvs rawArgs)))
          "assumptions" (.arr [])))
        (valueToStrList (dictGetD (docCtxOf (ensureDocWriteArgsSchema (objKvs rawArgs)))
          "constraints" (.arr []))))
    ∧ dictGet (prepareDocWriteArgs st rawArgs) "doc_type" = .str "generic"
    ∧ dictGet (prepareDocWriteArgs st rawArgs) "title" = .str (clarifyTitle st)
    ∧ cleanArgsForTool (toolParams "doc_write") (.obj (prepareDocWriteArgs st rawArgs)) =
        prepareDocWriteArgs st rawArgs := by
  have hprep : prepareDocWriteArgs st rawArgs =
      dictSet (dictSet (dictSet (ensureDocWriteArgsSchema (objKvs rawArgs))
        "title" (.str (clarifyTitle st)))
        "doc_type" (.str "generic"))
        "content" (.str (makeClarifyDoc st ""
          (valueToStrList (dictGetD (docCtxOf (ensureDocWriteArgsSchema (objKvs rawArgs)))
            "assumptions" (.arr [])))
          (valueToStrList (dictGetD (docCtxOf (ensureDocWriteArgsSchema (objKvs rawArgs)))
            "constraints" (.arr []))))) := by
    rw [prepareDocWriteArgs]
    simp only [hGoal, if_true]
  rw [hprep, ensureDocWriteArgsSchema]
  refine ⟨?_, ?_, ?_, ?_⟩ <;>
    simp [dictSet, dictGet, List.lookup, cleanArgsForTool, toolParams]

/-- Concrete malformed decision arguments: a context without any
`task_goal`. -/
def c4arg : Value :=
  .obj [("title", .str "My doc"), ("content", .str "body"),
        ("context", .obj [("assumptions", .arr [.str "a1"])])]

/-- C4, witness: the substitution theorem at a concrete argument mapping
whose context lacks a goal. -/
theorem c4_empty_goal_clarify_substitution_witness :
    extractGoalFromContext (docCtxOf (ensureDocWriteArgsSchema (objKvs c4arg))) = ""
    ∧ dictGet (prepareDocWriteArgs "Step X" c4arg) "content" =
        .str (makeClarifyDoc "Step X" "" ["a1"] [])
    ∧ dictGet (prepareDocWriteArgs "Step X" c4arg) "doc_type" = .str "generic"
    ∧ dictGet (prepareDocWriteArgs "Step X" c4arg) "title" =
        .str (clarifyTitle "Step X") :=
  ⟨rfl,
   (c4_empty_goal_clarify_substitution "Step X" c4arg rfl).1,
   (c4_empty_goal_clarify_substitution "Step X" c4arg rfl).2.1,
   (c4_empty_goal_clarify_substitution "Step X" c4arg rfl).2.2.1⟩

lemma str_ne_retryErrorRecord (s det : String) :
    Value.str s ≠ retryErrorRecord det := by
  simp [retryErrorRecord]

lemma attemptLoop_invocations_le (env : Env) (d : Value) (st tn : String) (ra : Value)
    (ca : List (String × Value)) (i t : Nat) :
    (attemptLoop env d st tn ra ca i t).invocations.length ≤ 2 := by
  rcases h1 : env.toolBeh t tn ca with e1 | out
  · rcases h2 : env.toolBeh (t + 1) tn (selfHealArgs env i tn st ra ca e1).1 with e2 | out2
    · simp [attemptLoop, h1, h2]
    · simp [attemptLoop, h1, h2]
  · simp [attemptLoop, h1]

/-! ### C3: guardrail override semantics -/

/-- C3: after a successful `doc_write` call — on attempt 1 or, after a
self-heal round trip, on attempt 2 — whose output trips any of the three
guardrail checks, the tool's output is discarded: `run_step`'s final
outcome is exactly the clarify document generated from the step title and
the enforced context, and the final decision is the synthetic record (with
`confidence = 100` and a `reason` naming which checks fired).  Guardrail
checking happens only there: a successful non-document (metrics) call and
a terminal two-failure error record pass through with the cascade's
decision untouched. -/
theorem c3_guardrail_override :
    (∀ (env : Env) (st : String) (mem : List (String × Value)) (d : Value) (i1 : Nat)
        (b1 : List ℚ) (ra : Value) (ca : List (String × Value)) (g : String)
        (A C : List String) (out : Value),
      llmJson env 0 (userPrompt st mem) = (.ok d, i1, b1) →
      preflight st mem d = ("doc_write", ra, ca) →
      guardCtx ra = (g, A, C) →
      env.toolBeh 0 "doc_write" ca = .ok out →
      checksFired st ra out = true →
      (runStep env st mem).result =
        .ok (.str (makeClarifyDoc st g A C),
             syntheticClarifyDecision st g A C
               (containsPlaceholders (outTextOf out)) (duplicateHeaders (outTextOf out))
               (likelyDomainDrift g st (outTextOf out))))
    ∧ (∀ (env : Env) (st : String) (mem : List (String × Value)) (d : Value) (i1 : Nat)
        (b1 : List ℚ) (ra : Value) (ca : List (String × Value)) (g : String)
        (A C : List String) (e1 : String) (out : Value),
      llmJson env 0 (userPrompt st mem) = (.ok d, i1, b1) →
      preflight st mem d = ("doc_write", ra, ca) →
      guardCtx ra = (g, A, C) →
      env.toolBeh 0 "doc_write" ca = .error e1 →
      env.toolBeh 1 "doc_write" (selfHealArgs env i1 "doc_write" st ra ca e1).1 = .ok out →
      checksFired st ra out = true →
      (runStep env st mem).result =
        .ok (.str (makeClarifyDoc st g A C),
             syntheticClarifyDecision st g A C
               (containsPlaceholders (outTextOf out)) (duplicateHeaders (outTextOf out))
               (likelyDomainDrift g st (outTextOf out))))
    ∧ (∀ (env : Env) (st : String) (mem : List (String × Value)) (d : Value) (i1 : Nat)
        (b1 : List ℚ) (tn : String) (ra : Value) (ca : List (String × Value)) (out : Value),
      llmJson env 0 (userPrompt st mem) = (.ok d, i1, b1) →
      preflight st mem d = (tn, ra, ca) →
      tn ≠ "doc_write" →
      env.toolBeh 0 tn ca = .ok out →
      (runStep env st mem).result = .ok (out, d))
    ∧ (∀ (env : Env) (st : String) (mem : List (String × Value)) (d : Value) (i1 : Nat)
        (b1 : List ℚ) (tn : String) (ra : Value) (ca : List (String × Value)) (e1 e2 : String),
      llmJson env 0 (userPrompt st mem) = (.ok d, i1, b1) →
      preflight st mem d = (tn, ra, ca) →
      env.toolBeh 0 tn ca = .error e1 →
      env.toolBeh 1 tn (selfHealArgs env i1 tn st ra ca e1).1 = .error e2 →
      (runStep env st mem).result = .ok (retryErrorRecord e2, d)) := by
  refine ⟨?_, ?_, ?_, ?_⟩
  · intro env st mem d i1 b1 ra ca g A C out hD hP hG hTool hFire
    rw [runStep_eq env st mem d i1 b1 "doc_write" ra ca hD hP]
    rw [attemptLoop_ok1_doc env d st ra ca i1 0 out hTool]
    rw [docSuccessPostprocess_fired d st ra out g A C hG hFire]
  · intro env st mem d i1 b1 ra ca g A C e1 out hD hP hG h1 h2 hFire
    rw [runStep_eq env st mem d i1 b1 "doc_write" ra ca hD hP]
    rw [attemptLoop_fail_ok_doc env d st ra ca i1 0 e1 out h1 h2]
    rw [docSuccessPostprocess_fired d st ra out g A C hG hFire]
  · intro env st mem d i1 b1 tn ra ca out hD hP htn hTool
    rw [runStep_eq env st mem d i1 b1 tn ra ca hD hP]
    rw [attemptLoop_ok1_other env d st tn ra ca i1 0 out htn hTool]
  · intro env st mem d i1 b1 tn ra ca e1 e2 hD hP h1 h2
    rw [runStep_eq env st mem d i1 b1 tn ra ca hD hP]
    rw [attemptLoop_fail_fail env d st tn ra ca i1 0 e1 e2 h1 h2]

/-- The text of a parsable decision selecting `doc_write` with a concrete
fitness goal. -/
def tbdDecisionText : String :=
  "\x7b\"tool\": \"doc_write\", \"args\": \x7b\"title\": \"Doc\", \"content\": \"x\", \"doc_type\": \"prd\", \"context\": \x7b\"task_goal\": \"mobile fitness app\", \"assumptions\": [], \"constraints\": []\x7d\x7d\x7d"

/-- The decision `tbdDecisionText` parses to. -/
def tbdDecision : Value :=
  .obj [("tool", .str "doc_write"),
        ("args", .obj [("title", .str "Doc"), ("content", .str "x"),
                       ("doc_type", .str "prd"),
                       ("context", .obj [("task_goal", .str "mobile fitness app"),
                                         ("assumptions", .arr []),
                                         ("constraints", .arr [])])])]

/-- Environment: the endpoint returns `tbdDecisionText`; the tool returns
a document containing the placeholder token `tbd`. -/
def envTbd : Env :=
  ⟨"groq", true, fun _ => .resp 200 "body" (some tbdDecisionText),
   fun _ _ _ => .ok (.str "Final tbd plan for the fitness mobile launch")⟩

/-- Environment: the endpoint returns `tbdDecisionText`; the tool raises
on attempt 1 and, after the self-heal round trip, returns the
`tbd`-bearing document on attempt 2. -/
def envTbdHeal : Env :=
  ⟨"groq", true, fun _ => .resp 200 "body" (some tbdDecisionText),
   fun i _ _ =>
     if i = 0 then .error "boom0"
     else .ok (.str "Final tbd plan for the fitness mobile launch")⟩

/-- C3, witness: `tbd` output with a non-empty goal forces the clarify
outcome — both when the tool succeeds on attempt 1 and when it succeeds
only on the post-self-heal attempt 2 — and the synthetic decision's
`reason` records `bad_placeholders=True` with `confidence = 100`. -/
theorem c3_guardrail_override_witness :
    checksFired "Mobile app plan"
      (preflight "Mobile app plan" [] tbdDecision).2.1
      (.str "Final tbd plan for the fitness mobile launch") = true
    ∧ (runStep envTbd "Mobile app plan" []).result =
        .ok (.str (makeClarifyDoc "Mobile app plan" "mobile fitness app" [] []),
             syntheticClarifyDecision "Mobile app plan" "mobile fitness app" [] []
               true false false)
    ∧ (runStep envTbdHeal "Mobile app plan" []).result =
        .ok (.str (makeClarifyDoc "Mobile app plan" "mobile fitness app" [] []),
             syntheticClarifyDecision "Mobile app plan" "mobile fitness app" [] []
               true false false)
    ∧ vGetD (syntheticClarifyDecision "Mobile app plan" "mobile fitness app" [] []
        true false false) "reason" .null =
        .str "bad_placeholders=True, bad_dup_headers=False, bad_domain_drift=False"
    ∧ vGetD (syntheticClarifyDecision "Mobile app plan" "mobile fitness app" [] []
        true false false) "confidence" .null = .num 100 := by
  have hbp : containsPlaceholders
      (outTextOf (.str "Final tbd plan for the fitness mobile launch")) = true := rfl
  have hbd : duplicateHeaders
      (outTextOf (.str "Final tbd plan for the fitness mobile launch")) = false := rfl
  have hdr : likelyDomainDrift "mobile fitness app" "Mobile app plan"
      (outTextOf (.str "Final tbd plan for the fitness mobile launch")) = false := rfl
  refine ⟨rfl, ?_, ?_, rfl, rfl⟩
  · have h := (c3_guardrail_override.1 envTbd "Mobile app plan" [] tbdDecision 1 []
       (preflight "Mobile app plan" [] tbdDecision).2.1
       (preflight "Mobile app plan" [] tbdDecision).2.2
       "mobile fitness app" [] []
       (.str "Final tbd plan for the fitness mobile launch")
       rfl rfl rfl rfl rfl)
    rw [hbp, hbd, hdr] at h
    exact h
  · have h := (c3_guardrail_override.2.1 envTbdHeal "Mobile app plan" [] tbdDecision 1 []
       (preflight "Mobile app plan" [] tbdDecision).2.1
       (preflight "Mobile app plan" [] tbdDecision).2.2
       "mobile fitness app" [] [] "boom0"
       (.str "Final tbd plan for the fitness mobile launch")
       rfl rfl rfl rfl rfl rfl)
    rw [hbp, hbd, hdr] at h
    exact h

/-! ### C9: bounded tool attempts with one self-heal round trip -/

/-- C9: tool execution is bounded at exactly 2 attempts.  A first-attempt
exception triggers one self-heal round trip whose corrected arguments
drive attempt 2 (the original cleaned arguments are reused when the
self-heal round trip itself raises); a successful second attempt yields a
non-error outcome, and a second failure yields exactly the terminal
`{error: "Tool execution failed after retry", details}` record with no
further attempts. -/
theorem c9_bounded_retry_with_self_heal :
    (∀ (env : Env) (st : String) (mem : List (String × Value)),
      (runStep env st mem).invocations.length ≤ 2)
    ∧ (∀ (env : Env) (st : String) (mem : List (String × Value)) (d : Value) (i1 : Nat)
        (b1 : List ℚ) (tn : String) (ra : Value) (ca : List (String × Value))
        (e1 : String) (v : Value),
      llmJson env 0 (userPrompt st mem) = (.ok d, i1, b1) →
      preflight st mem d = (tn, ra, ca) →
      env.toolBeh 0 tn ca = .error e1 →
      env.toolBeh 1 tn (selfHealArgs env i1 tn st ra ca e1).1 = .ok v →
      (∀ det, v ≠ retryErrorRecord det) →
      exceptIsOk (runStep env st mem).result = true
      ∧ (runStep env st mem).invocations =
          [(tn, ca), (tn, (selfHealArgs env i1 tn st ra ca e1).1)]
      ∧ ∀ det out fd, (runStep env st mem).result = .ok (out, fd) →
          out ≠ retryErrorRecord det)
    ∧ (∀ (env : Env) (st : String) (mem : List (String × Value)) (d : Value) (i1 : Nat)
        (b1 : List ℚ) (tn : String) (ra : Value) (ca : List (String × Value))
        (e1 e2 : String),
      llmJson env 0 (userPrompt st mem) = (.ok d, i1, b1) →
      preflight st mem d = (tn, ra, ca) →
      env.toolBeh 0 tn ca = .error e1 →
      env.toolBeh 1 tn (selfHealArgs env i1 tn st ra ca e1).1 = .error e2 →
      (runStep env st mem).result = .ok (retryErrorRecord e2, d)
      ∧ (runStep env st mem).invocations =
          [(tn, ca), (tn, (selfHealArgs env i1 tn st ra ca e1).1)])
    ∧ (∀ (env : Env) (i : Nat) (tn st : String) (ra : Value)
        (ca : List (String × Value)) (e err : String) (i' : Nat) (bs : List ℚ),
      llmJson env i (fixPrompt tn st ra e) = (.error err, i', bs) →
      selfHealArgs env i tn st ra ca e = (ca, i')) := by
  refine ⟨?_, ?_, ?_, ?_⟩
  · intro env st mem
    rcases hL : llmJson env 0 (userPrompt st mem) with ⟨res, i1, b1⟩
    cases res with
    | error e =>
      simp [runStep, hL]
    | ok d =>
      rcases hP : preflight st mem d with ⟨tn, ra, ca⟩
      rw [runStep_eq env st mem d i1 b1 tn ra ca hL hP]
      exact attemptLoop_invocations_le env d st tn ra ca i1 0
  · intro env st mem d i1 b1 tn ra ca e1 v hD hP h1 h2 hv
    rw [runStep_eq env st mem d i1 b1 tn ra ca hD hP]
    by_cases htn : tn = "doc_write"
    · subst htn
      rw [attemptLoop_fail_ok_doc env d st ra ca i1 0 e1 v h1 h2]
      refine ⟨rfl, rfl, ?_⟩
      intro det out fd heq
      have hout : out = (docSuccessPostprocess d st ra v).1 := by
        injection heq with h
        exact (congrArg Prod.fst h).symm
      rw [hout]
      by_cases hf : checksFired st ra v = true
      · rcases hG : guardCtx ra with ⟨g, A, C⟩
        rw [docSuccessPostprocess_fired d st ra v g A C hG hf]
        exact str_ne_retryErrorRecord _ det
      · rw [docSuccessPostprocess_clean d st ra v (Bool.not_eq_true _ ▸ hf)]
        exact hv det
    · rw [attemptLoop_fail_ok_other env d st tn ra ca i1 0 e1 v htn h1 h2]
      refine ⟨rfl, rfl, ?_⟩
      intro det out fd heq
      have hout : out = v := by
        injection heq with h
        exact (congrArg Prod.fst h).symm
      rw [hout]
      exact hv det
  · intro env st mem d i1 b1 tn ra ca e1 e2 hD hP h1 h2
    rw [runStep_eq env st mem d i1 b1 tn ra ca hD hP]
    rw [attemptLoop_fail_fail env d st tn ra ca i1 0 e1 e2 h1 h2]
    exact ⟨rfl, rfl⟩
  · intro env i tn st ra ca e err i' bs h
    unfold selfHealArgs
    rw [h]

/-- Mock-provider environment whose tool raises on every attempt. -/
def envFailTwice : Env :=
  ⟨"mock", false, fun _ => .exn "unused", fun i _ _ => .error ("boom" ++ toString i)⟩

/-- Mock-provider environment whose tool raises once, then succeeds. -/
def envFailOnce : Env :=
  ⟨"mock", false, fun _ => .exn "unused",
   fun i _ _ => if i = 0 then .error "boom0" else .ok (.str "A fixed document")⟩

/-- C9, witness: both failure scenarios at concrete mock environments —
two raises end in the terminal error record after exactly 2 invocations;
a raise followed by a success ends in a non-error outcome. -/
theorem c9_bounded_retry_witness :
    (runStep envFailTwice "T" []).result =
      .ok (retryErrorRecord "boom1", mockDecision (userPrompt "T" []))
    ∧ (runStep envFailTwice "T" []).invocations.length = 2
    ∧ exceptIsOk (runStep envFailOnce "T" []).result = true := by
  refine ⟨?_, ?_, ?_⟩
  · exact (c9_bounded_retry_with_self_heal.2.2.1 envFailTwice "T" []
      (mockDecision (userPrompt "T" [])) 0 []
      (preflight "T" [] (mockDecision (userPrompt "T" []))).1
      (preflight "T" [] (mockDecision (userPrompt "T" []))).2.1
      (preflight "T" [] (mockDecision (userPrompt "T" []))).2.2
      "boom0" "boom1" rfl rfl rfl rfl).1
  · rw [(c9_bounded_retry_with_self_heal.2.2.1 envFailTwice "T" []
      (mockDecision (userPrompt "T" [])) 0 []
      (preflight "T" [] (mockDecision (userPrompt "T" []))).1
      (preflight "T" [] (mockDecision (userPrompt "T" []))).2.1
      (preflight "T" [] (mockDecision (userPrompt "T" []))).2.2
      "boom0" "boom1" rfl rfl rfl rfl).2]
    rfl
  · exact (c9_bounded_retry_with_self_heal.2.1 envFailOnce "T" []
      (mockDecision (userPrompt "T" [])) 0 []
      (preflight "T" [] (mockDecision (userPrompt "T" []))).1
      (preflight "T" [] (mockDecision (userPrompt "T" []))).2.1
      (preflight "T" [] (mockDecision (userPrompt "T" []))).2.2
      "boom0" (.str "A fixed document") rfl rfl rfl rfl
      (fun det => str_ne_retryErrorRecord _ det)).1

/-! ### C10: the final decision is the cascade's decision unless a
guardrail fires -/

/-- C10 (frame property): whenever the tool call succeeds — on attempt 1
or attempt 2 — and no guardrail check fires (which is automatic for the
metrics tool, whose outputs are never guardrail-checked), `run_step`
returns as its final decision exactly the mapping the repair cascade
produced, unmodified; and after two tool failures the decision is likewise
returned untouched next to the error record.  Only a fired guardrail ever
replaces the final decision. -/
theorem c10_final_decision_unmodified :
    (∀ (env : Env) (st : String) (mem : List (String × Value)) (d : Value) (i1 : Nat)
        (b1 : List ℚ) (tn : String) (ra : Value) (ca : List (String × Value)) (v : Value),
      llmJson env 0 (userPrompt st mem) = (.ok d, i1, b1) →
      preflight st mem d = (tn, ra, ca) →
      env.toolBeh 0 tn ca = .ok v →
      (tn = "doc_write" → checksFired st ra v = false) →
      (runStep env st mem).result = .ok (v, d))
    ∧ (∀ (env : Env) (st : String) (mem : List (String × Value)) (d : Value) (i1 : Nat)
        (b1 : List ℚ) (tn : String) (ra : Value) (ca : List (String × Value))
        (e1 : String) (v : Value),
      llmJson env 0 (userPrompt st mem) = (.ok d, i1, b1) →
      preflight st mem d = (tn, ra, ca) →
      env.toolBeh 0 tn ca = .error e1 →
      env.toolBeh 1 tn (selfHealArgs env i1 tn st ra ca e1).1 = .ok v →
      (tn = "doc_write" → checksFired st ra v = false) →
      (runStep env st mem).result = .ok (v, d))
    ∧ (∀ (env : Env) (st : String) (mem : List (String × Value)) (d : Value) (i1 : Nat)
        (b1 : List ℚ) (tn : String) (ra : Value) (ca : List (String × Value))
        (e1 e2 : String),
      llmJson env 0 (userPrompt st mem) = (.ok d, i1, b1) →
      preflight st mem d = (tn, ra, ca) →
      env.toolBeh 0 tn ca = .error e1 →
      env.toolBeh 1 tn (selfHealArgs env i1 tn st ra ca e1).1 = .error e2 →
      ∀ out fd, (runStep env st mem).result = .ok (out, fd) → fd = d) := by
  refine ⟨?_, ?_, ?_⟩
  · intro env st mem d i1 b1 tn ra ca v hD hP hTool hcf
    rw [runStep_eq env st mem d i1 b1 tn ra ca hD hP]
    by_cases htn : tn = "doc_write"
    · subst htn
      rw [attemptLoop_ok1_doc env d st ra ca i1 0 v hTool]
      rw [docSuccessPostprocess_clean d st ra v (hcf rfl)]
    · rw [attemptLoop_ok1_other env d st tn ra ca i1 0 v htn hTool]
  · intro env st mem d i1 b1 tn ra ca e1 v hD hP h1 h2 hcf
    rw [runStep_eq env st mem d i1 b1 tn ra ca hD hP]
    by_cases htn : tn = "doc_write"
    · subst htn
      rw [attemptLoop_fail_ok_doc env d st ra ca i1 0 e1 v h1 h2]
      rw [docSuccessPostprocess_clean d st ra v (hcf rfl)]
    · rw [attemptLoop_fail_ok_other env d st tn ra ca i1 0 e1 v htn h1 h2]
  · intro env st mem d i1 b1 tn ra ca e1 e2 hD hP h1 h2 out fd heq
    rw [runStep_eq env st mem d i1 b1 tn ra ca hD hP] at heq
    rw [attemptLoop_fail_fail env d st tn ra ca i1 0 e1 e2 h1 h2] at heq
    injection heq with h
    exact (congrArg Prod.snd h).symm

/-- The text of a parsable decision selecting the metrics tool. -/
def metricsDecisionText : String := "\x7b\"tool\": \"metrics_generate\", \"args\": \x7b\x7d\x7d"

/-- The decision `metricsDecisionText` parses to. -/
def metricsDecision : Value :=
  .obj [("tool", .str "metrics_generate"), ("args", .obj [])]

/-- Environment: the endpoint selects the metrics tool; the tool returns a
metrics object. -/
def envMetrics : Env :=
  ⟨"groq", true, fun _ => .resp 200 "body" (some metricsDecisionText),
   fun _ _ _ => .ok (.obj [("north_star_metric", .str "weekly_active_users")])⟩

/-- C10, witness: a metrics-tool success returns the cascade's decision
mapping untouched. -/
theorem c10_final_decision_unmodified_witness :
    preflight "Define KPIs" [("task_goal", .str "fitness app")] metricsDecision =
      ("metrics_generate",
       (preflight "Define KPIs" [("task_goal", .str "fitness app")] metricsDecision).2.1,
       (preflight "Define KPIs" [("task_goal", .str "fitness app")] metricsDecision).2.2)
    ∧ (runStep envMetrics "Define KPIs" [("task_goal", .str "fitness app")]).result =
        .ok (.obj [("north_star_metric", .str "weekly_active_users")], metricsDecision) :=
  ⟨rfl,
   c10_final_decision_unmodified.1 envMetrics "Define KPIs"
     [("task_goal", .str "fitness app")] metricsDecision 1 [] "metrics_generate"
     (preflight "Define KPIs" [("task_goal", .str "fitness app")] metricsDecision).2.1
     (preflight "Define KPIs" [("task_goal", .str "fitness app")] metricsDecision).2.2
     (.obj [("north_star_metric", .str "weekly_active_users")])
     rfl rfl rfl
     (fun h => absurd h (by decide))⟩

end Workelate
